import Mathlib

set_option maxRecDepth 4000

/-!
Verification of the bootstrap-mcp indexing and retrieval engine.

The Python sources (`src/parser.py`, `src/indexer.py`, `src/search.py`,
`src/examples_parser.py`, `src/examples_search.py`) are shallowly embedded
below.  Strings are modelled as `List Char` in the scanning primitives and
wrapped in `String` at the API boundary; the SQLite state is modelled as an
explicit record of table rows.
-/

namespace Bootstrap

/-- ASCII view of Python's regex word character `\w` (ASCII range), used by
the `\b` word-boundary assertions of the utility-class patterns. -/
def isWordChar (c : Char) : Bool :=
  c.isAlphanum || c == '_'

/-- Python `str.split()` whitespace set (ASCII part). -/
def isPySpace (c : Char) : Bool :=
  c == ' ' || c == '\t' || c == '\n' || c == '\r' || c == '\x0b' || c == '\x0c'

/-- Helper for `pySplitWs`: accumulates the current word (reversed). -/
def pySplitWsAux : List Char → List Char → List (List Char)
  | [], cur => if cur.isEmpty then [] else [cur.reverse]
  | c :: rest, cur =>
    if isPySpace c then
      if cur.isEmpty then pySplitWsAux rest [] else cur.reverse :: pySplitWsAux rest []
    else
      pySplitWsAux rest (c :: cur)

/-- Python `str.split()` with no argument: split on runs of whitespace,
discarding empty strings. -/
def pySplitWs (l : List Char) : List (List Char) :=
  pySplitWsAux l []

/-- Python `str.strip()` (ASCII whitespace). -/
def pyStrip (l : List Char) : List Char :=
  ((l.dropWhile isPySpace).reverse.dropWhile isPySpace).reverse

/-- SQLite `LIKE` compares characters ASCII-case-insensitively (its
`sqlite3UpperToLower` folding touches only `A`–`Z`). -/
def likeCharEq (a b : Char) : Bool :=
  a = b ||
    (65 ≤ a.toNat && a.toNat ≤ 90 && b.toNat = a.toNat + 32) ||
    (65 ≤ b.toNat && b.toNat ≤ 90 && a.toNat = b.toNat + 32)

/-- Fuelled evaluator for SQLite `LIKE` matching: `%` matches any run, `_`
any single character, other characters match ASCII-case-insensitively.
Structural on the fuel so the kernel can evaluate it. -/
def likeMatchF : Nat → List Char → List Char → Bool
  | 0, _, _ => false
  | f + 1, p, s =>
    match p with
    | [] => s.isEmpty
    | c :: p' =>
      if c = '%' then
        likeMatchF f p' s ||
          (match s with
           | [] => false
           | _ :: s' => likeMatchF f p s')
      else
        match s with
        | [] => false
        | d :: s' => (if c = '_' then true else likeCharEq c d) && likeMatchF f p' s'

/-- The fuel used by `likeMatch` is irrelevant once it exceeds the total
length of pattern and subject. -/
theorem likeMatchF_congr :
    ∀ (f₁ f₂ : Nat) (p s : List Char), p.length + s.length < f₁ →
      p.length + s.length < f₂ → likeMatchF f₁ p s = likeMatchF f₂ p s := by
  intro f₁
  induction f₁ with
  | zero => intro f₂ p s h₁ _; exact absurd h₁ (by omega)
  | succ f ih =>
    intro f₂ p s h₁ h₂
    obtain ⟨g, rfl⟩ : ∃ g, f₂ = g + 1 := ⟨f₂ - 1, by omega⟩
    cases p with
    | nil => rfl
    | cons c p' =>
      simp only [List.length_cons] at h₁ h₂
      by_cases hc : c = '%'
      · subst hc
        cases s with
        | nil =>
          have e₁ := ih g p' [] (by simp only [List.length_cons, List.length_nil]; omega)
            (by simp only [List.length_cons, List.length_nil]; omega)
          simp [likeMatchF, e₁]
        | cons d s' =>
          simp only [List.length_cons] at h₁ h₂
          have e₁ := ih g p' (d :: s') (by simp only [List.length_cons, List.length_nil]; omega)
            (by simp only [List.length_cons, List.length_nil]; omega)
          have e₂ := ih g ('%' :: p') s' (by simp only [List.length_cons, List.length_nil]; omega)
            (by simp only [List.length_cons, List.length_nil]; omega)
          simp [likeMatchF, e₁, e₂]
      · cases s with
        | nil => simp [likeMatchF, hc]
        | cons d s' =>
          simp only [List.length_cons] at h₁ h₂
          have e₁ := ih g p' s' (by omega) (by omega)
          simp [likeMatchF, hc, e₁]

/-- SQLite `LIKE` matching (pattern, then subject). -/
def likeMatch (p s : List Char) : Bool :=
  likeMatchF (p.length + s.length + 1) p s

/-- Bridge between the fuelled evaluator and `likeMatch`. -/
theorem likeMatchF_eq (f : Nat) (p s : List Char) (h : p.length + s.length < f) :
    likeMatchF f p s = likeMatch p s :=
  likeMatchF_congr f (p.length + s.length + 1) p s h (by omega)

/-- More fuel never turns a successful `LIKE` match into a failure. -/
theorem likeMatchF_mono :
    ∀ (f g : Nat) (p s : List Char), f ≤ g → likeMatchF f p s = true →
      likeMatchF g p s = true := by
  intro f
  induction f with
  | zero => intro g p s _ h; simp [likeMatchF] at h
  | succ f ih =>
    intro g p s hfg h
    obtain ⟨g', rfl⟩ : ∃ g', g = g' + 1 := ⟨g - 1, by omega⟩
    have hfg' : f ≤ g' := by omega
    cases p with
    | nil => exact h
    | cons c p' =>
      by_cases hc : c = '%'
      · subst hc
        simp only [likeMatchF, if_pos rfl] at h ⊢
        rcases Bool.or_eq_true_iff.mp h with h' | h'
        · exact Or.inl (ih g' p' s hfg' h') |> Bool.or_eq_true_iff.mpr
        · cases s with
          | nil => simp at h'
          | cons d s' =>
            exact Or.inr (ih g' ('%' :: p') s' hfg' h') |> Bool.or_eq_true_iff.mpr
      · simp only [likeMatchF, if_neg hc] at h ⊢
        cases s with
        | nil => simp at h
        | cons d s' =>
          rcases Bool.and_eq_true_iff.mp h with ⟨h1, h2⟩
          exact Bool.and_eq_true_iff.mpr ⟨h1, ih g' p' s' hfg' h2⟩

/-- If some fuel certifies a match then `likeMatch` itself succeeds. -/
theorem likeMatch_of_fuel (p s : List Char) (f : Nat) (h : likeMatchF f p s = true) :
    likeMatch p s = true := by
  have hm := likeMatchF_mono f (max f (p.length + s.length + 1)) p s (Nat.le_max_left _ _) h
  calc likeMatch p s = likeMatchF (max f (p.length + s.length + 1)) p s :=
        (likeMatchF_eq _ _ _ (by have := Nat.le_max_right f (p.length + s.length + 1); omega)).symm
    _ = true := hm

theorem likeCharEq_refl (c : Char) : likeCharEq c c = true := by
  simp [likeCharEq]

/-- A `%` pattern head can absorb any prefix of the subject. -/
theorem likeMatchF_percent_absorb :
    ∀ (s₁ : List Char) (p s₂ : List Char) (f : Nat), likeMatchF f p s₂ = true →
      ∃ g, likeMatchF g ('%' :: p) (s₁ ++ s₂) = true := by
  intro s₁
  induction s₁ with
  | nil =>
    intro p s₂ f h
    refine ⟨f + 1, ?_⟩
    simp only [List.nil_append, likeMatchF, if_pos rfl]
    exact Bool.or_eq_true_iff.mpr (Or.inl h)
  | cons c s₁' ih =>
    intro p s₂ f h
    obtain ⟨g, hg⟩ := ih p s₂ f h
    refine ⟨g + 1, ?_⟩
    simp only [List.cons_append, likeMatchF, if_pos rfl]
    exact Bool.or_eq_true_iff.mpr (Or.inr hg)

/-- A pattern fragment matches its own text (wildcards match themselves). -/
theorem likeMatchF_self_append :
    ∀ (t p s : List Char) (f : Nat), likeMatchF f p s = true →
      ∃ g, likeMatchF g (t ++ p) (t ++ s) = true := by
  intro t
  induction t with
  | nil => intro p s f h; exact ⟨f, h⟩
  | cons c t' ih =>
    intro p s f h
    obtain ⟨g, hg⟩ := ih p s f h
    by_cases hc : c = '%'
    · subst hc
      obtain ⟨g', hg'⟩ := likeMatchF_percent_absorb ['%'] (t' ++ p) (t' ++ s) g hg
      exact ⟨g', hg'⟩
    · refine ⟨g + 1, ?_⟩
      simp only [List.cons_append, likeMatchF, if_neg hc]
      refine Bool.and_eq_true_iff.mpr ⟨?_, hg⟩
      by_cases hu : c = '_'
      · simp [hu]
      · simp [hu, likeCharEq_refl]

/-- A single `%` matches any subject. -/
theorem likeMatchF_percent_any (s : List Char) :
    ∃ g, likeMatchF g ['%'] s = true := by
  obtain ⟨g, hg⟩ := likeMatchF_percent_absorb s [] [] 1 (by rfl)
  rw [List.append_nil] at hg
  exact ⟨g, hg⟩

/-- A `%…%` pattern built from a literal fragment matches any subject that
contains the fragment. -/
theorem likeMatch_contains (mid a b : List Char) :
    likeMatch ('%' :: (mid ++ ['%'])) (a ++ (mid ++ b)) = true := by
  obtain ⟨g₀, h₀⟩ := likeMatchF_percent_any b
  obtain ⟨g₁, h₁⟩ := likeMatchF_self_append mid ['%'] b g₀ h₀
  obtain ⟨g₂, h₂⟩ := likeMatchF_percent_absorb a (mid ++ ['%']) (mid ++ b) g₁ h₁
  exact likeMatch_of_fuel _ _ g₂ h₂

/-- Every literal (non-wildcard) character of a successful pattern has a
`LIKE`-equal counterpart in the subject. -/
theorem likeMatchF_literal_mem :
    ∀ (f : Nat) (p s : List Char), likeMatchF f p s = true →
      ∀ c ∈ p, c ≠ '%' → c ≠ '_' → ∃ d ∈ s, likeCharEq c d = true := by
  intro f
  induction f with
  | zero => intro p s h; simp [likeMatchF] at h
  | succ f ih =>
    intro p s h c hcp hcpercent hcund
    cases p with
    | nil => simp at hcp
    | cons e p' =>
      by_cases he : e = '%'
      · subst he
        simp only [likeMatchF, if_pos rfl] at h
        rcases List.mem_cons.mp hcp with rfl | hcp'
        · exact absurd rfl hcpercent
        · rcases Bool.or_eq_true_iff.mp h with h' | h'
          · exact ih p' s h' c hcp' hcpercent hcund
          · cases s with
            | nil => simp at h'
            | cons d s' =>
              obtain ⟨d', hd', he'⟩ := ih ('%' :: p') s' h' c hcp hcpercent hcund
              exact ⟨d', List.mem_cons_of_mem d hd', he'⟩
      · simp only [likeMatchF, if_neg he] at h
        cases s with
        | nil => simp at h
        | cons d s' =>
          rcases Bool.and_eq_true_iff.mp h with ⟨h1, h2⟩
          rcases List.mem_cons.mp hcp with rfl | hcp'
          · refine ⟨d, List.mem_cons_self d s', ?_⟩
            by_cases hu : c = '_'
            · exact absurd hu hcund
            · simpa [hu] using h1
          · obtain ⟨d', hd', he'⟩ := ih p' s' h2 c hcp' hcpercent hcund
            exact ⟨d', List.mem_cons_of_mem d hd', he'⟩

/-- `likeMatch` version of `likeMatchF_literal_mem`. -/
theorem likeMatch_literal_mem (p s : List Char) (h : likeMatch p s = true)
    (c : Char) (hcp : c ∈ p) (h₁ : c ≠ '%') (h₂ : c ≠ '_') :
    ∃ d ∈ s, likeCharEq c d = true :=
  likeMatchF_literal_mem _ p s h c hcp h₁ h₂

/-! ### `src/parser.py`: UTILITY_PATTERNS

Each regex in `UTILITY_PATTERNS` is `\b(ALTS)\b` where `ALTS` is a finite
alternation; we embed each family as its full candidate language.  Python's
`pattern.match(cls)` then holds exactly when some candidate is a prefix of
`cls` ending on a word boundary (candidates start and end in word
characters, so the leading `\b` holds whenever a candidate is a prefix at
position 0). -/

/-- `\d` as 1- or 2-digit strings (for `\d{1,2}` in the grid-column regex). -/
def digitStrings : List String :=
  let ds := "0123456789".toList
  ds.map (fun c => String.mk [c]) ++ ds.flatMap (fun a => ds.map (fun b => String.mk [a, b]))

def spacingCandidates : List String :=
  ["m", "p"].flatMap fun base =>
    ["", "t", "b", "l", "r", "x", "y"].flatMap fun mid =>
      ["-0", "-1", "-2", "-3", "-4", "-5", "-auto"].map fun suf => base ++ mid ++ suf

def displayValues : List String :=
  ["none", "inline", "inline-block", "block", "grid", "table", "table-cell",
   "table-row", "flex", "inline-flex"]

def displayCandidates : List String :=
  displayValues.map (fun v => "d-" ++ v)

def breakpointNames : List String := ["sm", "md", "lg", "xl", "xxl"]

def respDisplayCandidates : List String :=
  breakpointNames.flatMap fun bp => displayValues.map (fun v => "d-" ++ bp ++ "-" ++ v)

def flexCandidates : List String :=
  ["row", "row-reverse", "column", "column-reverse", "wrap", "nowrap",
   "wrap-reverse", "fill", "grow-0", "grow-1", "shrink-0", "shrink-1"].map
    (fun v => "flex-" ++ v)

def justifyCandidates : List String :=
  ["start", "end", "center", "between", "around", "evenly"].map
    (fun v => "justify-content-" ++ v)

def alignItemsCandidates : List String :=
  ["start", "end", "center", "baseline", "stretch"].map (fun v => "align-items-" ++ v)

def alignSelfCandidates : List String :=
  ["start", "end", "center", "baseline", "stretch"].map (fun v => "align-self-" ++ v)

def colCandidates : List String :=
  ("" :: breakpointNames.map (fun bp => "-" ++ bp)).flatMap fun bp =>
    ("" :: "-auto" :: digitStrings.map (fun d => "-" ++ d)).map fun w =>
      "col" ++ bp ++ w

def textColorCandidates : List String :=
  ["primary", "secondary", "success", "danger", "warning", "info", "light",
   "dark", "body", "muted", "white", "black-50", "white-50"].map (fun v => "text-" ++ v)

def bgCandidates : List String :=
  ["primary", "secondary", "success", "danger", "warning", "info", "light",
   "dark", "body", "white", "transparent"].map (fun v => "bg-" ++ v)

def borderBaseCandidates : List String :=
  ["border", "border-top", "border-bottom", "border-start", "border-end", "border-0"]

def borderColorCandidates : List String :=
  ["primary", "secondary", "success", "danger", "warning", "info", "light",
   "dark", "white"].map (fun v => "border-" ++ v)

def roundedCandidates : List String :=
  "rounded" ::
    ["top", "bottom", "start", "end", "circle", "pill", "0", "1", "2", "3"].map
      (fun v => "rounded-" ++ v)

def sizingCandidates : List String :=
  ["w", "h"].flatMap fun d => ["25", "50", "75", "100", "auto"].map (fun v => d ++ "-" ++ v)

def positionCandidates : List String :=
  ["static", "relative", "absolute", "fixed", "sticky"].map (fun v => "position-" ++ v)

def textAlignCandidates : List String :=
  ["start", "end", "center", "justify", "wrap", "nowrap", "break", "truncate"].map
    (fun v => "text-" ++ v)

def textTransformCandidates : List String :=
  ["lowercase", "uppercase", "capitalize"].map (fun v => "text-" ++ v)

def fwCandidates : List String :=
  ["light", "lighter", "normal", "bold", "bolder"].map (fun v => "fw-" ++ v)

def fsCandidates : List String :=
  ["1", "2", "3", "4", "5", "6"].map (fun v => "fs-" ++ v)

/-- The 19 regex families of `UTILITY_PATTERNS`, as candidate languages. -/
def UTILITY_PATTERNS : List (List String) :=
  [spacingCandidates, displayCandidates, respDisplayCandidates, flexCandidates,
   justifyCandidates, alignItemsCandidates, alignSelfCandidates, colCandidates,
   textColorCandidates, bgCandidates, borderBaseCandidates, borderColorCandidates,
   roundedCandidates, sizingCandidates, positionCandidates, textAlignCandidates,
   textTransformCandidates, fwCandidates, fsCandidates]

/-- The trailing `\b` of a utility regex: after a candidate of length `n`,
the subject ends or continues with a non-word character. -/
def boundaryAfter (n : Nat) (cls : List Char) : Bool :=
  match cls.drop n with
  | [] => true
  | c :: _ => !isWordChar c

/-- Python `pattern.match(cls)` for one family: some alternative matches a
prefix of `cls` starting at position 0 and ending on a word boundary. -/
def familyMatch (alts : List String) (cls : String) : Bool :=
  alts.any fun a => a.toList.isPrefixOf cls.toList && boundaryAfter a.toList.length cls.toList

/-- The parser's inner loop: `any(pattern.match(cls) for pattern in UTILITY_PATTERNS)`. -/
def anyUtilityMatch (cls : String) : Bool :=
  UTILITY_PATTERNS.any fun alts => familyMatch alts cls

/-- Modelled from the spec's words (for comparison with `anyUtilityMatch`):
a token "fully matches" a family pattern when it equals one of the family's
alternatives, i.e. the match is anchored at both ends. -/
def specAnchoredFullMatch (cls : String) : Bool :=
  UTILITY_PATTERNS.any fun alts => alts.any fun a => a == cls

/-! ### `src/parser.py`: scanners for CLASS_PATTERN and EXAMPLE_PATTERN -/

/-- Strip a literal off the front of a character list. -/
def dropLit (pat l : List Char) : Option (List Char) :=
  if pat.isPrefixOf l then some (l.drop pat.length) else none

/-- `True` for the quote characters of the `["\']` character classes. -/
def isQuote (c : Char) : Bool :=
  c == '"' || c == '\''

/-- Split at the first occurrence of `pat`: returns the text before it and
the text after it.  `none` when `pat` does not occur. -/
def splitOnFirst (pat : List Char) : List Char → Option (List Char × List Char)
  | [] => none
  | c :: rest =>
    if pat.isPrefixOf (c :: rest) then some ([], (c :: rest).drop pat.length)
    else
      match splitOnFirst pat rest with
      | some (pre, post) => some (c :: pre, post)
      | none => none

/-- One attempt of `CLASS_PATTERN = class(?:Name)?=["\']([^"\']+)["\']` at
the current position: returns the captured group and the total matched
length. -/
def classAttrAt (l : List Char) : Option (List Char × Nat) :=
  match dropLit "class".toList l with
  | none => none
  | some l1 =>
    let (nameLen, l2) :=
      match dropLit "Name".toList l1 with
      | some l2 => (4, l2)
      | none => (0, l1)
    match l2 with
    | '=' :: q :: l4 =>
      if isQuote q then
        let body := l4.takeWhile (fun c => !isQuote c)
        if body.isEmpty then none
        else
          match l4.drop body.length with
          | q2 :: _ => if isQuote q2 then some (body, 5 + nameLen + 2 + body.length + 1) else none
          | [] => none
      else none
    | _ => none

/-- `CLASS_PATTERN.findall`: scan left to right, collecting non-overlapping
matches; `skip` counts positions still inside the previous match. -/
def scanClassAttrs : Nat → List Char → List (List Char)
  | _, [] => []
  | skip + 1, _ :: rest => scanClassAttrs skip rest
  | 0, c :: rest =>
    match classAttrAt (c :: rest) with
    | some (cap, n) => cap :: scanClassAttrs (n - 1) rest
    | none => scanClassAttrs 0 rest

/-- Strict code-point comparison of characters (Python's `<` on `str` is
lexicographic over code points). -/
def charLtB (a b : Char) : Bool :=
  a.val.toNat < b.val.toNat

/-- Lexicographic `≤` on character lists. -/
def strLeChars : List Char → List Char → Bool
  | [], _ => true
  | _ :: _, [] => false
  | a :: as, b :: bs => charLtB a b || (a = b && strLeChars as bs)

def strLe (x y : String) : Bool :=
  strLeChars x.toList y.toList

/-- Sorting and set deduplication for `sorted(list(set(...)))` (keep-last
deduplication then insertion sort; the result is the canonical sorted
duplicate-free sequence, which is what Python produces). -/
def insertStr (x : String) : List String → List String
  | [] => [x]
  | y :: ys => if strLe x y then x :: y :: ys else y :: insertStr x ys

def sortStrs : List String → List String
  | [] => []
  | x :: xs => insertStr x (sortStrs xs)

def dedupStrs : List String → List String
  | [] => []
  | x :: xs => if x ∈ xs then dedupStrs xs else x :: dedupStrs xs

/-- `BootstrapDocParser._extract_utility_classes`. -/
def extract_utility_classes (content : String) : List String :=
  let classStrings := scanClassAttrs 0 content.toList
  let kept := classStrings.flatMap fun classString =>
    (pySplitWs classString).filterMap fun cls =>
      if anyUtilityMatch (String.mk cls) then some (String.mk cls) else none
  sortStrs (dedupStrs kept)

/-- One attempt of `EXAMPLE_PATTERN = <Example[^>]*>(.*?)</Example>` (DOTALL)
at the current position: captured group and total matched length. -/
def exampleAt (l : List Char) : Option (List Char × Nat) :=
  match dropLit "<Example".toList l with
  | none => none
  | some l1 =>
    let attrs := l1.takeWhile (fun c => c ≠ '>')
    match l1.drop attrs.length with
    | '>' :: l2 =>
      match splitOnFirst "</Example>".toList l2 with
      | some (body, _) => some (body, 8 + attrs.length + 1 + body.length + 10)
      | none => none
    | _ => none

/-- `EXAMPLE_PATTERN.findall`: non-overlapping left-to-right scan. -/
def scanExamples : Nat → List Char → List (List Char)
  | _, [] => []
  | skip + 1, _ :: rest => scanExamples skip rest
  | 0, c :: rest =>
    match exampleAt (c :: rest) with
    | some (cap, n) => cap :: scanExamples (n - 1) rest
    | none => scanExamples 0 rest

/-- One extracted code example. -/
structure CodeExample where
  id : String
  content : String
deriving DecidableEq, Repr

/-- The `enumerate(example_matches, 1)` loop of `_extract_code_examples`:
ids use the original 1-based match index; blocks empty after `strip()` are
dropped without consuming an id. -/
def collectExamples : Nat → List (List Char) → List CodeExample
  | _, [] => []
  | i, m :: ms =>
    let cleaned := pyStrip m
    if cleaned.isEmpty then collectExamples (i + 1) ms
    else ⟨"example_" ++ toString i, String.mk cleaned⟩ :: collectExamples (i + 1) ms

/-- `BootstrapDocParser._extract_code_examples`. -/
def extract_code_examples (content : String) : List CodeExample :=
  collectExamples 1 (scanExamples 0 content.toList)

/-! ### `src/parser.py`: `parse_file` / `parse_directory` -/

/-- Splitting helper (`str.split(sep)` for a single-character separator). -/
def splitOnCharAux (sep : Char) : List Char → List Char → List (List Char)
  | [], cur => [cur.reverse]
  | c :: rest, cur =>
    if c = sep then cur.reverse :: splitOnCharAux sep rest []
    else splitOnCharAux sep rest (c :: cur)

def splitOnChar (sep : Char) (l : List Char) : List (List Char) :=
  splitOnCharAux sep l []

/-- `pathlib.PurePath.stem` on a file name: drop the final suffix, where a
suffix starts at the last `.` that is neither leading nor trailing. -/
def pyStem (name : List Char) : List Char :=
  let dotIdxs := (List.range name.length).filter fun i => name.getD i ' ' = '.'
  match dotIdxs.getLast? with
  | some i => if 0 < i && i + 1 < name.length then name.take i else name
  | none => name

/-- Front-matter metadata with the `metadata.get` defaults of `parse_file`
already applied.  The `frontmatter` library is external to the repository;
its successful outcome is modelled as this structure plus the body text. -/
structure FrontMatter where
  title : String
  description : String
  aliases : List String
  toc : Bool
deriving DecidableEq, Repr

/-- One MDX file handed to the parser: its path relative to the docs root
and the outcome of `frontmatter.load` (`none` models the library raising,
which `parse_file` turns into a skipped file). -/
structure MdxFile where
  relpath : String
  fm : Option (FrontMatter × String)
deriving DecidableEq, Repr

/-- The dictionary returned by `BootstrapDocParser.parse_file`. -/
structure ParsedDoc where
  filepath : String
  title : String
  description : String
  sectionName : String
  component_name : String
  utility_classes : List String
  code_examples : List CodeExample
  aliases : List String
  toc : Bool
  content : String
  url : String
deriving DecidableEq, Repr

/-- `BootstrapDocParser._extract_path_info`. -/
def extract_path_info (relpath : String) : String × String :=
  let parts := splitOnChar '/' relpath.toList
  let sectionName := match parts with | [] => "" | p :: _ => String.mk p
  let component_name := String.mk (pyStem ((parts.getLast?).getD []))
  (sectionName, component_name)

/-- `BootstrapDocParser._generate_doc_url`. -/
def generate_doc_url (relpath : String) : String :=
  let parts := splitOnChar '/' relpath.toList
  let sectionName := match parts with | [] => "" | p :: _ => String.mk p
  let page := String.mk (pyStem ((parts.getLast?).getD []))
  "https://getbootstrap.com/docs/5.3" ++ "/" ++ sectionName ++ "/" ++ page ++ "/"

/-- `BootstrapDocParser.parse_file`: any failure (unreadable file or
front-matter error, modelled by `fm = none`) is caught and yields `none`. -/
def parse_file (f : MdxFile) : Option ParsedDoc :=
  match f.fm with
  | none => none
  | some (meta, content) =>
    let info := extract_path_info f.relpath
    some
      { filepath := f.relpath
        title := meta.title
        description := meta.description
        sectionName := info.1
        component_name := info.2
        utility_classes := extract_utility_classes content
        code_examples := extract_code_examples content
        aliases := meta.aliases
        toc := meta.toc
        content := content
        url := generate_doc_url f.relpath }

/-- `BootstrapDocParser.parse_directory`: parse every globbed file (in glob
order) and keep only the successful results. -/
def parse_directory (files : List MdxFile) : List ParsedDoc :=
  files.filterMap parse_file

/-! ### `src/indexer.py`: the SQLite store

`doc_metadata` has `id INTEGER PRIMARY KEY AUTOINCREMENT` and
`filepath TEXT UNIQUE`; `docs_fts` is an FTS5 table addressed by `rowid`.
`nextId` models the AUTOINCREMENT sequence (monotone, never reused, not
reset by `DELETE`).  List-valued columns are stored serialized with
`json.dumps`; rows are kept in insertion (= rowid) order. -/

structure DocRow where
  id : Nat
  filepath : String
  title : String
  description : String
  sectionName : String
  component_name : String
  utility_classes : List String
  code_examples : List CodeExample
  aliases : List String
  toc : Bool
  url : String
deriving DecidableEq, Repr

structure FtsRow where
  rowid : Nat
  title : String
  description : String
  content : String
  sectionName : String
  component_name : String
deriving DecidableEq, Repr

structure DocDB where
  nextId : Nat
  metaRows : List DocRow
  ftsRows : List FtsRow
deriving DecidableEq, Repr

/-- A freshly created database file after `initialize_database`. -/
def emptyDB : DocDB :=
  { nextId := 1, metaRows := [], ftsRows := [] }

/-- `BootstrapIndexer.initialize_database`: `CREATE TABLE IF NOT EXISTS`,
idempotent on an existing schema. -/
def init_database (db : DocDB) : DocDB := db

/-- `BootstrapIndexer.clear_index`: `DELETE FROM` both tables.  SQLite does
not rewind the AUTOINCREMENT sequence on `DELETE`. -/
def clear_index (db : DocDB) : DocDB :=
  { db with metaRows := [], ftsRows := [] }

/-- `BootstrapIndexer.index_document`:
`INSERT OR REPLACE INTO doc_metadata` deletes any row conflicting on the
unique `filepath` and inserts a fresh row, which (no explicit `id` given,
AUTOINCREMENT) receives a brand-new id; `cursor.lastrowid` is that id.
`INSERT OR REPLACE INTO docs_fts (rowid, …)` then replaces exactly the FTS
row with that rowid.  In the embedding none of these statements can raise,
so the function always reports success. -/
def index_document (db : DocDB) (doc : ParsedDoc) : DocDB × Bool :=
  let newId := db.nextId
  let metaRows :=
    db.metaRows.filter (fun r => r.filepath ≠ doc.filepath) ++
      [{ id := newId, filepath := doc.filepath, title := doc.title,
         description := doc.description, sectionName := doc.sectionName,
         component_name := doc.component_name,
         utility_classes := doc.utility_classes,
         code_examples := doc.code_examples, aliases := doc.aliases,
         toc := doc.toc, url := doc.url }]
  let ftsRows :=
    db.ftsRows.filter (fun r => r.rowid ≠ newId) ++
      [{ rowid := newId, title := doc.title, description := doc.description,
         content := doc.content, sectionName := doc.sectionName,
         component_name := doc.component_name }]
  ({ nextId := newId + 1, metaRows := metaRows, ftsRows := ftsRows }, true)

/-- `BootstrapIndexer.build_index`: initialize → clear → parse_directory →
index each parsed document, tallying (successful, failed). -/
def build_index (db : DocDB) (files : List MdxFile) : DocDB × Nat × Nat :=
  let db1 := clear_index (init_database db)
  let documents := parse_directory files
  documents.foldl
    (fun acc doc =>
      let res := index_document acc.1 doc
      if res.2 then (res.1, acc.2.1 + 1, acc.2.2) else (res.1, acc.2.1, acc.2.2 + 1))
    (db1, 0, 0)

/-! ### `src/search.py`: synonyms and query expansion -/

/-- The `SEARCH_SYNONYMS` table. -/
def SEARCH_SYNONYMS (word : String) : Option (List String) :=
  match word with
  | "blog" => some ["article", "post", "content", "typography"]
  | "article" => some ["blog", "post", "content", "typography"]
  | "post" => some ["blog", "article", "content"]
  | "layout" => some ["grid", "container", "columns", "row"]
  | "template" => some ["layout", "pattern", "example"]
  | "pattern" => some ["template", "layout", "example"]
  | "form" => some ["input", "select", "checkbox", "validation"]
  | "input" => some ["form", "text", "field"]
  | "navbar" => some ["nav", "navigation", "menu", "header"]
  | "navigation" => some ["nav", "navbar", "menu"]
  | "menu" => some ["nav", "navbar", "navigation", "dropdown"]
  | "header" => some ["navbar", "nav", "top"]
  | "footer" => some ["bottom", "copyright"]
  | "sidebar" => some ["aside", "column", "offcanvas"]
  | "dialog" => some ["modal", "popup", "alert"]
  | "popup" => some ["modal", "dialog", "popover"]
  | "image" => some ["img", "picture", "figure", "thumbnail"]
  | "picture" => some ["image", "img", "figure"]
  | "photo" => some ["image", "img", "picture"]
  | "caption" => some ["figure", "figcaption"]
  | "table" => some ["grid", "data", "rows"]
  | "list" => some ["items", "ul", "ol"]
  | "button" => some ["btn", "action", "submit"]
  | "link" => some ["anchor", "url", "href"]
  | _ => none

/-- Python `str.lower()` (ASCII part, which covers all synonym keys). -/
def pyLower (s : String) : String :=
  String.mk (s.toList.map Char.toLower)

/-- `' OR '.join(...)`. -/
def joinOr : List String → String
  | [] => ""
  | [t] => t
  | t :: ts => t ++ " OR " ++ joinOr ts

/-- The body of the expansion loop: append the word itself, then up to two
of its synonyms. -/
def expandStep (all_terms : List String) (word : String) : List String :=
  let all_terms := all_terms ++ [word]
  match SEARCH_SYNONYMS word with
  | some syns => all_terms ++ syns.take 2
  | none => all_terms

/-- `expand_query_with_synonyms`: each lowercased word contributes itself and
then at most two synonyms, all collected into one flat list joined by `OR`. -/
def expand_query_with_synonyms (query : String) : String :=
  let words := (pySplitWs (pyLower query).toList).map String.mk
  let all_terms := words.foldl expandStep []
  joinOr all_terms

/-- The flat term list produced by the expansion loop (characterisation used
by the theorems). -/
def expandTermList (query : String) : List String :=
  ((pySplitWs (pyLower query).toList).map String.mk).flatMap fun word =>
    word ::
      (match SEARCH_SYNONYMS word with
       | some syns => syns.take 2
       | none => [])

/-- Modelled from the spec: evaluation of a flat `t₁ OR t₂ OR …` query by
the external full-text engine — a record (viewed as the list of terms it
contains) matches iff at least one disjunct occurs in it. -/
def ftsOrMatch (terms : List String) (recordTerms : List String) : Bool :=
  terms.any fun t => recordTerms.contains t

/-! ### `src/search.py`: `BootstrapSearch.search` -/

/-- One row produced by the FTS `SELECT` of `search` (the bm25 score is
modelled as an integer; only its sign handling matters here). -/
structure SearchRawRow where
  id : Nat
  filepath : String
  title : String
  description : String
  sectionName : String
  component_name : String
  url : String
  snippet : String
  relevance_score : Int
deriving DecidableEq, Repr

/-- One dictionary of the list returned by `search`. -/
structure SearchResult where
  id : Nat
  filepath : String
  title : String
  description : String
  sectionName : String
  component_name : String
  url : String
  snippet : String
  relevance_score : Int
deriving DecidableEq, Repr

/-- The row-to-dict conversion of the result loop (`abs(...)` applied to the
engine's score). -/
def rowToResult (r : SearchRawRow) : SearchResult :=
  { id := r.id, filepath := r.filepath, title := r.title,
    description := r.description, sectionName := r.sectionName,
    component_name := r.component_name, url := r.url, snippet := r.snippet,
    relevance_score := |r.relevance_score| }

/-- The behaviour of `cursor.execute(<FTS SELECT>, (query, limit))` +
`fetchall`: given the `MATCH` string and the limit it either returns rows or
raises (`Except.error`). -/
def QueryExec : Type :=
  String → Nat → Except String (List SearchRawRow)

/-- `BootstrapSearch.search`: run the synonym-expanded query; on any failure
retry once with the raw query; on a second failure return `[]`. -/
def search (exec : QueryExec) (query : String) (limit : Nat) : List SearchResult :=
  let expanded := expand_query_with_synonyms query
  match exec expanded limit with
  | .ok rows => rows.map rowToResult
  | .error _ =>
    match exec query limit with
    | .ok rows => rows.map rowToResult
    | .error _ => []

/-! ### `src/search.py`: JSON serialisation of list columns

`index_document` stores list-valued fields with `json.dumps` and the read
paths deserialise with `json.loads`; rows are modelled with the lists
themselves, and the serialised TEXT column is reconstructed by `jsonDumps`
(faithful to `json.dumps` with its `ensure_ascii` default). -/

def hexDigit (n : Nat) : Char :=
  "0123456789abcdef".toList.getD n '0'

def uEscape4 (n : Nat) : List Char :=
  ['\\', 'u', hexDigit (n / 4096 % 16), hexDigit (n / 256 % 16),
   hexDigit (n / 16 % 16), hexDigit (n % 16)]

def uEscape (c : Char) : List Char :=
  let n := c.toNat
  if n ≤ 0xFFFF then uEscape4 n
  else
    let m := n - 0x10000
    uEscape4 (0xD800 + m / 0x400) ++ uEscape4 (0xDC00 + m % 0x400)

def jsonEscapeChar (c : Char) : List Char :=
  if c = '"' then ['\\', '"']
  else if c = '\\' then ['\\', '\\']
  else if c.toNat < 0x20 || c.toNat > 0x7e then
    if c = '\n' then ['\\', 'n']
    else if c = '\t' then ['\\', 't']
    else if c = '\r' then ['\\', 'r']
    else if c = '\x08' then ['\\', 'b']
    else if c = '\x0c' then ['\\', 'f']
    else uEscape c
  else [c]

/-- `json.dumps` of one string, as characters. -/
def jsonStr (s : String) : List Char :=
  '"' :: s.toList.flatMap jsonEscapeChar ++ ['"']

def joinChunks (sep : List Char) : List (List Char) → List Char
  | [] => []
  | [x] => x
  | x :: xs => x ++ sep ++ joinChunks sep xs

/-- `json.dumps` of a list of strings (default `', '` item separator). -/
def jsonDumps (l : List String) : String :=
  String.mk ('[' :: joinChunks ", ".toList (l.map jsonStr) ++ [']'])

/-- A character that `json.dumps` emits unchanged. -/
def jsonPlainChar (c : Char) : Bool :=
  c ≠ '"' && c ≠ '\\' && 0x20 ≤ c.toNat && c.toNat ≤ 0x7e

/-! ### `src/search.py`: read paths used by the claims -/

/-- Result shape of `find_component`. -/
structure ComponentHit where
  id : Nat
  filepath : String
  title : String
  description : String
  sectionName : String
  component_name : String
  utility_classes : List String
  code_examples : List CodeExample
  url : String
deriving DecidableEq, Repr

/-- `BootstrapSearch.find_component`: `WHERE component_name = ? LIMIT 1`. -/
def find_component (component_name : String) (rows : List DocRow) : Option ComponentHit :=
  (rows.find? fun r => r.component_name == component_name).map fun r =>
    { id := r.id, filepath := r.filepath, title := r.title,
      description := r.description, sectionName := r.sectionName,
      component_name := r.component_name,
      utility_classes := r.utility_classes,
      code_examples := r.code_examples, url := r.url }

/-- Result shape of `find_utility_class`. -/
structure UtilityClassHit where
  id : Nat
  filepath : String
  title : String
  description : String
  sectionName : String
  utility_classes : List String
  url : String
deriving DecidableEq, Repr

/-- `BootstrapSearch.find_utility_class`: SQL pre-filter
`utility_classes LIKE '%"<name>"%'` on the serialised column, then the
in-memory re-check `class_name in utility_classes` on the parsed list. -/
def find_utility_class (class_name : String) (rows : List DocRow) : List UtilityClassHit :=
  let pattern := '%' :: '"' :: class_name.toList ++ ['"', '%']
  (rows.filter fun r => likeMatch pattern (jsonDumps r.utility_classes).toList).filterMap
    fun r =>
      if class_name ∈ r.utility_classes then
        some
          { id := r.id, filepath := r.filepath, title := r.title,
            description := r.description, sectionName := r.sectionName,
            utility_classes := r.utility_classes, url := r.url }
      else none

/-- Result shape of `get_doc_by_slug` (metadata joined with the FTS body). -/
structure SlugDoc where
  id : Nat
  filepath : String
  title : String
  description : String
  sectionName : String
  component_name : String
  utility_classes : List String
  code_examples : List CodeExample
  aliases : List String
  toc : Bool
  url : String
  content : String
deriving DecidableEq, Repr

/-- `BootstrapSearch.get_doc_by_slug`: join `doc_metadata` with `docs_fts`
on `id = rowid`, filter `filepath LIKE '%/<slug>.mdx'`, `LIMIT 1`. -/
def get_doc_by_slug (db : DocDB) (slug : String) : Option SlugDoc :=
  let pattern := '%' :: '/' :: slug.toList ++ ".mdx".toList
  let joined := db.metaRows.filterMap fun m =>
    match db.ftsRows.find? (fun f => f.rowid == m.id) with
    | some f =>
      if likeMatch pattern m.filepath.toList then some (m, f) else none
    | none => none
  joined.head?.map fun p =>
    { id := p.1.id, filepath := p.1.filepath, title := p.1.title,
      description := p.1.description, sectionName := p.1.sectionName,
      component_name := p.1.component_name,
      utility_classes := p.1.utility_classes,
      code_examples := p.1.code_examples, aliases := p.1.aliases,
      toc := p.1.toc, url := p.1.url, content := p.2.content }

/-! ### `src/examples_parser.py` -/

/-- Curated per-template metadata (the `TEMPLATE_METADATA` dict values). -/
structure TemplateMeta where
  category : String
  description : String
  complexity : String
  components : List String
deriving DecidableEq, Repr

/-- The `TEMPLATE_METADATA` table. -/
def TEMPLATE_METADATA (name : String) : Option TemplateMeta :=
  match name with
  | "album" => some ⟨"content", "Photo album layout with grid of cards", "simple",
      ["navbar", "card", "grid", "buttons"]⟩
  | "album-rtl" => some ⟨"content", "Photo album layout with RTL (right-to-left) support",
      "simple", ["navbar", "card", "grid", "buttons"]⟩
  | "badges" => some ⟨"components", "Badge component examples and variations", "simple",
      ["badge"]⟩
  | "blog" => some ⟨"content", "Multi-column blog layout with featured posts",
      "intermediate", ["navbar", "card", "grid", "pagination"]⟩
  | "blog-rtl" => some ⟨"content", "Multi-column blog layout with RTL support",
      "intermediate", ["navbar", "card", "grid", "pagination"]⟩
  | "breadcrumbs" => some ⟨"navigation", "Breadcrumb navigation examples", "simple",
      ["breadcrumb"]⟩
  | "buttons" => some ⟨"components", "Button component examples and variations", "simple",
      ["buttons", "button-group"]⟩
  | "carousel" => some ⟨"components", "Image carousel with controls and indicators",
      "simple", ["carousel"]⟩
  | "carousel-rtl" => some ⟨"components", "Image carousel with RTL support", "simple",
      ["carousel"]⟩
  | "cheatsheet" => some ⟨"reference", "Complete reference of all Bootstrap components",
      "complex",
      ["accordion", "alerts", "badge", "breadcrumb", "buttons", "card", "carousel",
       "dropdown", "forms", "list-group", "modal", "navbar", "pagination", "progress",
       "spinners", "toasts", "tooltips"]⟩
  | "cheatsheet-rtl" => some ⟨"reference",
      "Complete reference of all Bootstrap components with RTL support", "complex",
      ["accordion", "alerts", "badge", "breadcrumb", "buttons", "card", "carousel",
       "dropdown", "forms", "list-group", "modal", "navbar", "pagination", "progress",
       "spinners", "toasts", "tooltips"]⟩
  | "checkout" => some ⟨"forms", "E-commerce checkout form with validation", "complex",
      ["forms", "validation", "card", "grid"]⟩
  | "checkout-rtl" => some ⟨"forms", "E-commerce checkout form with RTL support",
      "complex", ["forms", "validation", "card", "grid"]⟩
  | "cover" => some ⟨"layouts", "Full-page cover template for landing pages", "simple",
      ["navbar", "buttons"]⟩
  | "dashboard" => some ⟨"admin", "Admin dashboard with sidebar, charts, and data tables",
      "complex", ["navbar", "offcanvas", "table", "card", "dropdown", "forms"]⟩
  | "dashboard-rtl" => some ⟨"admin", "Admin dashboard with RTL support", "complex",
      ["navbar", "offcanvas", "table", "card", "dropdown", "forms"]⟩
  | "dropdowns" => some ⟨"components", "Dropdown menu examples and variations", "simple",
      ["dropdown", "buttons"]⟩
  | "features" => some ⟨"layouts", "Feature sections for marketing pages", "simple",
      ["grid", "icons", "card"]⟩
  | "footers" => some ⟨"layouts", "Footer layout examples and variations", "simple",
      ["grid", "forms"]⟩
  | "grid" => some ⟨"layouts", "Grid system examples and responsive layouts",
      "intermediate", ["grid", "containers"]⟩
  | "headers" => some ⟨"layouts", "Header layout examples and variations", "simple",
      ["navbar", "nav", "dropdown"]⟩
  | "heroes" => some ⟨"layouts", "Hero section examples for landing pages", "simple",
      ["grid", "buttons", "carousel"]⟩
  | "jumbotron" => some ⟨"components", "Large callout section for featured content",
      "simple", ["buttons", "typography"]⟩
  | "list-groups" => some ⟨"components", "List group component examples", "simple",
      ["list-group", "badge"]⟩
  | "masonry" => some ⟨"layouts", "Masonry grid layout with cards", "intermediate",
      ["card", "grid"]⟩
  | "modals" => some ⟨"components", "Modal dialog examples and variations",
      "intermediate", ["modal", "buttons", "forms"]⟩
  | "navbars" => some ⟨"navigation", "Navbar examples and variations", "intermediate",
      ["navbar", "nav", "dropdown", "forms"]⟩
  | "navbars-offcanvas" => some ⟨"navigation", "Navbar with offcanvas mobile menu",
      "intermediate", ["navbar", "offcanvas", "nav"]⟩
  | "navbars-static" => some ⟨"navigation", "Static navbar examples", "simple",
      ["navbar", "nav"]⟩
  | "offcanvas" => some ⟨"components", "Offcanvas sidebar examples", "simple",
      ["offcanvas", "buttons"]⟩
  | "offcanvas-navbar" => some ⟨"navigation", "Navbar with integrated offcanvas menu",
      "intermediate", ["navbar", "offcanvas", "nav", "dropdown"]⟩
  | "pricing" => some ⟨"content", "Pricing table layouts", "intermediate",
      ["card", "grid", "buttons", "list-group"]⟩
  | "product" => some ⟨"content", "Product page layout for e-commerce", "complex",
      ["navbar", "card", "carousel", "grid", "buttons"]⟩
  | "sign-in" => some ⟨"forms", "Simple sign-in form layout", "simple",
      ["forms", "card"]⟩
  | "sidebars" => some ⟨"navigation", "Sidebar navigation examples", "intermediate",
      ["offcanvas", "nav", "dropdown"]⟩
  | "starter-template" => some ⟨"layouts", "Minimal starter template", "simple",
      ["navbar"]⟩
  | "sticky-footer" => some ⟨"layouts", "Layout with sticky footer", "simple", []⟩
  | "sticky-footer-navbar" => some ⟨"layouts", "Layout with sticky footer and navbar",
      "simple", ["navbar"]⟩
  | _ => none

/-- The filesystem seen by the template parser: existing files with their
contents.  `parse_template` only probes existence and reads files. -/
structure FileSys where
  files : List (String × String)
deriving DecidableEq, Repr

def FileSys.hasFile (fs : FileSys) (p : String) : Bool :=
  fs.files.any fun f => f.1 == p

def FileSys.readFile (fs : FileSys) (p : String) : Option String :=
  (fs.files.find? fun f => f.1 == p).map (·.2)

/-- Case-insensitive prefix test (patterns are lowercase ASCII). -/
def ciPre : List Char → List Char → Bool
  | [], _ => true
  | _ :: _, [] => false
  | p :: ps, c :: cs => (p.toLower = c.toLower) && ciPre ps cs

/-- Index of the first case-insensitive occurrence of `pat`. -/
def findCiIdx (pat : List Char) : List Char → Option Nat
  | [] => if pat.isEmpty then some 0 else none
  | c :: rest =>
    if ciPre pat (c :: rest) then some 0
    else (findCiIdx pat rest).map (· + 1)

/-- `_extract_title`: first `<title>(.*?)</title>` match (case-insensitive,
lazy), stripped; `"Bootstrap Example"` when absent. -/
def extract_title (html_content : String) : String :=
  let l := html_content.toList
  match findCiIdx "<title>".toList l with
  | none => "Bootstrap Example"
  | some i =>
    let afterOpen := l.drop (i + 7)
    match findCiIdx "</title>".toList afterOpen with
    | none => "Bootstrap Example"
    | some j => String.mk (pyStrip (afterOpen.take j))

/-- `os.path.basename`. -/
def pyBasename (p : String) : String :=
  String.mk ((splitOnChar '/' p.toList).getLastD [])

/-- Contiguous-sublist test. -/
def isSubChunk (pat : List Char) : List Char → Bool
  | [] => pat.isEmpty
  | c :: rest => pat.isPrefixOf (c :: rest) || isSubChunk pat rest

/-- `glob.glob(str(directory / '*.<ext>'))`: files directly inside the
directory whose (non-hidden) basename ends with the suffix. -/
def glob_star (fs : FileSys) (dir : String) (suffix : String) : List String :=
  fs.files.filterMap fun f =>
    match dropLit (dir ++ "/").toList f.1.toList with
    | some base =>
      if base.contains '/' then none
      else
        match base with
        | [] => none
        | b0 :: _ =>
          if b0 = '.' then none
          else if suffix.toList.isSuffixOf base then some f.1 else none
    | none => none

/-- `_find_files`: glob, then drop `.rtl.` asset variants. -/
def find_files (fs : FileSys) (dir : String) (suffix : String) : List String :=
  (glob_star fs dir suffix).filter fun p =>
    !(isSubChunk ".rtl.".toList (pyBasename p).toList)

/-- The prefix list of the template parser's `_extract_utility_classes`. -/
def HTML_UTILITY_PREFIXES : List String :=
  ["d-", "flex-", "justify-", "align-", "text-", "bg-", "border-",
   "m-", "mt-", "mb-", "ms-", "me-", "mx-", "my-",
   "p-", "pt-", "pb-", "ps-", "pe-", "px-", "py-",
   "w-", "h-", "mw-", "mh-", "vw-", "vh-",
   "position-", "top-", "bottom-", "start-", "end-",
   "rounded-", "shadow-", "opacity-", "overflow-",
   "gap-", "col-", "row-", "g-", "gx-", "gy-",
   "fs-", "fw-", "fst-", "lh-", "font-"]

/-- One attempt of the template parser's `class=["\']([^"\']+)["\']` at the
current position (no `className` alternative here). -/
def htmlClassAttrAt (l : List Char) : Option (List Char × Nat) :=
  match dropLit "class=".toList l with
  | none => none
  | some (q :: l4) =>
    if isQuote q then
      let body := l4.takeWhile fun c => !isQuote c
      if body.isEmpty then none
      else
        match l4.drop body.length with
        | q2 :: _ => if isQuote q2 then some (body, 6 + 1 + body.length + 1) else none
        | [] => none
    else none
  | some [] => none

/-- `re.finditer` over the template-parser class pattern. -/
def scanHtmlClassAttrs : Nat → List Char → List (List Char)
  | _, [] => []
  | skip + 1, _ :: rest => scanHtmlClassAttrs skip rest
  | 0, c :: rest =>
    match htmlClassAttrAt (c :: rest) with
    | some (cap, n) => cap :: scanHtmlClassAttrs (n - 1) rest
    | none => scanHtmlClassAttrs 0 rest

/-- `BootstrapExampleParser._extract_utility_classes`: keep tokens starting
with one of the curated prefixes. -/
def extract_utility_classes_html (html_content : String) : List String :=
  let classStrings := scanHtmlClassAttrs 0 html_content.toList
  let kept := classStrings.flatMap fun classString =>
    (pySplitWs classString).filterMap fun cls =>
      if HTML_UTILITY_PREFIXES.any (fun pre => pre.toList.isPrefixOf cls) then
        some (String.mk cls)
      else none
  sortStrs (dedupStrs kept)

/-- The `class=["\'][^"\']*…[^"\']*["\']` shape at the current position of
the (lowercased) markup: a `class=` attribute whose quoted run satisfies
`runP`. -/
def classRunAt (runP : List Char → Bool) (l : List Char) : Bool :=
  match dropLit "class=".toList l with
  | none => false
  | some (q :: l4) =>
    if isQuote q then
      let run := l4.takeWhile fun c => !isQuote c
      match l4.drop run.length with
      | _ :: _ => runP run
      | [] => false
    else false
  | some [] => false

/-- `re.search` over all positions for the class-attribute shape. -/
def classAttrScanP (runP : List Char → Bool) : List Char → Bool
  | [] => false
  | c :: rest => classRunAt runP (c :: rest) || classAttrScanP runP rest

/-- `\bnav\b` inside a quoted run (the run is quote-delimited in the markup,
so its edges are word boundaries). -/
def containsWordAux (pat : List Char) : Option Char → List Char → Bool
  | _, [] => false
  | prev, c :: rest =>
    (pat.isPrefixOf (c :: rest) &&
      (match prev with
       | none => true
       | some p => !isWordChar p) &&
      boundaryAfter pat.length (c :: rest)) ||
    containsWordAux pat (some c) rest

def containsWord (pat run : List Char) : Bool :=
  containsWordAux pat none run

/-- The `<table[^>]*class=…` search: after a `<table`, look for `class=`
before any `>`. -/
def tableAfter (runP : List Char → Bool) : List Char → Bool
  | [] => false
  | c :: rest =>
    if c = '>' then false
    else classRunAt runP (c :: rest) || tableAfter runP rest

def tableScan (runP : List Char → Bool) : List Char → Bool
  | [] => false
  | c :: rest =>
    (match dropLit "<table".toList (c :: rest) with
     | some l1 => tableAfter runP l1
     | none => false) ||
    tableScan runP rest

/-- `data-bs-toggle=["\']<value>["\']`. -/
def toggleScan (needle : List Char) : List Char → Bool
  | [] => false
  | c :: rest =>
    (match dropLit "data-bs-toggle=".toList (c :: rest) with
     | some (q :: l2) =>
       if isQuote q then
         match dropLit needle l2 with
         | some (q2 :: _) => isQuote q2
         | _ => false
       else false
     | _ => false) ||
    toggleScan needle rest

/-- `BootstrapExampleParser._extract_components`: the 22 component
signatures, tested case-insensitively against the markup (modelled by
lowercasing the ASCII markup first). -/
def extract_components (html_content : String) : List String :=
  let lc := html_content.toList.map Char.toLower
  let hit := fun (needle : String) => classAttrScanP (isSubChunk needle.toList) lc
  let checks : List (String × Bool) :=
    [("accordion", hit "accordion"),
     ("alert", hit "alert"),
     ("badge", hit "badge"),
     ("breadcrumb", hit "breadcrumb"),
     ("button", hit "btn"),
     ("button-group", hit "btn-group"),
     ("card", hit "card"),
     ("carousel", hit "carousel"),
     ("dropdown", hit "dropdown"),
     ("forms", isSubChunk "<form".toList lc || hit "form-control"),
     ("list-group", hit "list-group"),
     ("modal", hit "modal"),
     ("nav", classAttrScanP (containsWord "nav".toList) lc),
     ("navbar", hit "navbar"),
     ("offcanvas", hit "offcanvas"),
     ("pagination", hit "pagination"),
     ("progress", hit "progress"),
     ("spinner", hit "spinner"),
     ("table", tableScan (isSubChunk "table".toList) lc),
     ("toast", hit "toast"),
     ("tooltip", toggleScan "tooltip".toList lc),
     ("popover", toggleScan "popover".toList lc)]
  sortStrs (dedupStrs (checks.filterMap fun pc => if pc.2 then some pc.1 else none))

/-- Python `str.title()` (ASCII): uppercase a letter after a non-letter,
lowercase the rest. -/
def pyTitleAux : Bool → List Char → List Char
  | _, [] => []
  | prevCased, c :: rest =>
    if c.isAlpha then
      (if prevCased then c.toLower else c.toUpper) :: pyTitleAux true rest
    else c :: pyTitleAux false rest

def pyTitle (s : String) : String :=
  String.mk (pyTitleAux false s.toList)

/-- `template_name.replace("-", " ")`. -/
def replaceDash (s : String) : String :=
  String.mk (s.toList.map fun c => if c = '-' then ' ' else c)

/-- The dictionary returned by `BootstrapExampleParser.parse_template`. -/
structure TemplateRecord where
  name : String
  title : String
  category : String
  description : String
  complexity : String
  html_path : String
  html_content : String
  css_files : List String
  js_files : List String
  components : List String
  utility_classes : List String
  has_rtl_variant : Bool
  rtl_template_name : Option String
  is_rtl : Bool
  url : String
deriving DecidableEq, Repr

/-- `BootstrapExampleParser.parse_template`.  (CPython iterates
`list(set(...))` in an unspecified order; the union of curated and detected
components is modelled in its canonical sorted order.) -/
def parse_template (fs : FileSys) (examples_path : String) (dirName : String) :
    Option TemplateRecord :=
  let template_name := dirName
  let template_dir := examples_path ++ "/" ++ dirName
  let html_file := template_dir ++ "/index.html"
  if !(fs.hasFile html_file) then none
  else
    match fs.readFile html_file with
    | none => none
    | some html_content =>
      let metadata := (TEMPLATE_METADATA template_name).getD
        { category := "other",
          description := pyTitle (replaceDash template_name) ++ " template",
          complexity := "intermediate", components := [] }
      let title := extract_title html_content
      let css_files := find_files fs template_dir ".css"
      let js_files := find_files fs template_dir ".js"
      let utility_classes := extract_utility_classes_html html_content
      let components_used := extract_components html_content
      let all_components := sortStrs (dedupStrs (metadata.components ++ components_used))
      let is_rtl := "-rtl".toList.isSuffixOf template_name.toList
      let rtl_variant_name := template_name ++ "-rtl"
      let rtl_exists := fs.hasFile (examples_path ++ "/" ++ rtl_variant_name ++ "/index.html")
      let has_rtl_variant := if is_rtl then false else rtl_exists
      let rtl_template_name :=
        if is_rtl then none
        else if rtl_exists then some rtl_variant_name else none
      some
        { name := template_name, title := title, category := metadata.category,
          description := metadata.description, complexity := metadata.complexity,
          html_path := html_file, html_content := html_content,
          css_files := css_files, js_files := js_files,
          components := all_components, utility_classes := utility_classes,
          has_rtl_variant := has_rtl_variant,
          rtl_template_name := rtl_template_name, is_rtl := is_rtl,
          url := "https://getbootstrap.com/docs/5.3/examples/" ++ template_name ++ "/" }

/-! ### `src/examples_search.py`

One row of `template_metadata`; list-valued columns are modelled as the
lists whose `json.dumps` serialisation is stored. -/

structure TemplateRow where
  id : Nat
  name : String
  title : String
  category : String
  description : String
  complexity : String
  html_path : String
  css_files : List String
  js_files : List String
  components : List String
  utility_classes : List String
  has_rtl_variant : Bool
  rtl_template_name : Option String
  is_rtl : Bool
  url : String
deriving DecidableEq, Repr

/-- The dictionary returned by `get_template` (file contents hydrated). -/
structure TemplateData where
  id : Nat
  name : String
  title : String
  category : String
  description : String
  complexity : String
  html_content : String
  css_content : List (String × String)
  js_content : List (String × String)
  components : List String
  utility_classes : List String
  has_rtl_variant : Bool
  rtl_template_name : Option String
  is_rtl : Bool
  url : String
deriving DecidableEq, Repr

/-- The per-file read loops of `get_template`: a file that cannot be read is
skipped (logged); keys are basenames. -/
def readContentMap (fs : FileSys) (files : List String) : List (String × String) :=
  files.filterMap fun fp => (fs.readFile fp).map fun content => (pyBasename fp, content)

/-- `BootstrapExampleSearch.get_template`: `WHERE name = ? LIMIT 1`, then
hydrate the markup and asset files from disk (read failures leave the
defaults). -/
def get_template (fs : FileSys) (rows : List TemplateRow) (name : String) :
    Option TemplateData :=
  match rows.find? (fun r => r.name == name) with
  | none => none
  | some row =>
    let html_content :=
      if row.html_path ≠ "" then (fs.readFile row.html_path).getD "" else ""
    some
      { id := row.id, name := row.name, title := row.title,
        category := row.category, description := row.description,
        complexity := row.complexity, html_content := html_content,
        css_content := readContentMap fs row.css_files,
        js_content := readContentMap fs row.js_files,
        components := row.components, utility_classes := row.utility_classes,
        has_rtl_variant := row.has_rtl_variant,
        rtl_template_name := row.rtl_template_name, is_rtl := row.is_rtl,
        url := row.url }

/-- One attempt of `<tag[^>]*>.*?</tag>` (DOTALL, case-insensitive) at the
current position: the whole match (`group(0)`), preserving original case. -/
def tagBlockAt (tag : List Char) (l : List Char) : Option (List Char) :=
  if ciPre ('<' :: tag) l then
    let l1 := l.drop (tag.length + 1)
    let attrs := l1.takeWhile fun c => c ≠ '>'
    match l1.drop attrs.length with
    | '>' :: l2 =>
      match findCiIdx ('<' :: '/' :: tag ++ ['>']) l2 with
      | some j =>
        some (l.take (tag.length + 1 + attrs.length + 1 + j + (tag.length + 3)))
      | none => none
    | _ => none
  else none

/-- `re.search` for the section pattern: the match at the leftmost position
where the whole pattern matches. -/
def scanTagIdx (tag : List Char) : List Char → Option (Nat × List Char)
  | [] => none
  | c :: rest =>
    match tagBlockAt tag (c :: rest) with
    | some b => some (0, b)
    | none => (scanTagIdx tag rest).map fun p => (p.1 + 1, p.2)

def findTagBlock (tag : List Char) (l : List Char) : Option (List Char) :=
  (scanTagIdx tag l).map (·.2)

/-- `BootstrapExampleSearch._extract_section`: tag-bounded first match for
the four known sections, first 5000 characters otherwise. -/
def extract_section (html_content : String) (sectionTag : String) : String :=
  if sectionTag = "header" ∨ sectionTag = "nav" ∨ sectionTag = "main" ∨
      sectionTag = "footer" then
    match findTagBlock sectionTag.toList html_content.toList with
    | some block => String.mk block
    | none => String.mk (html_content.toList.take 5000)
  else String.mk (html_content.toList.take 5000)

/-- The dictionary returned by `get_template_preview`. -/
structure PreviewResult where
  name : String
  title : String
  sectionName : String
  preview : String
  url : String
deriving DecidableEq, Repr

/-- `'\n'.join(...)`. -/
def joinNl (ls : List (List Char)) : String :=
  String.mk (joinChunks ['\n'] ls)

/-- `BootstrapExampleSearch.get_template_preview`: `full` returns the first
500 lines; any other section tag goes through `_extract_section`. -/
def get_template_preview (fs : FileSys) (rows : List TemplateRow) (name : String)
    (sectionTag : String) : Option PreviewResult :=
  match get_template fs rows name with
  | none => none
  | some t =>
    let preview :=
      if sectionTag = "full" then
        joinNl ((splitOnChar '\n' t.html_content.toList).take 500)
      else extract_section t.html_content sectionTag
    some
      { name := t.name, title := t.title, sectionName := sectionTag,
        preview := preview, url := t.url }

/-- Result shape of `get_templates_by_component`. -/
structure TemplateComponentHit where
  id : Nat
  name : String
  title : String
  category : String
  description : String
  complexity : String
  components : List String
  url : String
deriving DecidableEq, Repr

/-- `BootstrapExampleSearch.get_templates_by_component`: SQL pre-filter
`components LIKE '%"<component>"%'` then the in-memory re-check
`component in components`. -/
def get_templates_by_component (component : String) (rows : List TemplateRow) :
    List TemplateComponentHit :=
  let pattern := '%' :: '"' :: component.toList ++ ['"', '%']
  (rows.filter fun r => likeMatch pattern (jsonDumps r.components).toList).filterMap
    fun r =>
      if component ∈ r.components then
        some
          { id := r.id, name := r.name, title := r.title, category := r.category,
            description := r.description, complexity := r.complexity,
            components := r.components, url := r.url }
      else none

/-! ## Fixtures -/

/-- Front matter of the valid fixture file. -/
def fmButtons : FrontMatter :=
  { title := "Buttons", description := "", aliases := [], toc := false }

/-- A valid documentation file with front-matter title "Buttons". -/
def fileButtons : MdxFile :=
  { relpath := "components/buttons.mdx",
    fm := some (fmButtons, "Use the button classes.") }

/-- A malformed documentation file: front-matter parsing fails. -/
def fileBroken : MdxFile :=
  { relpath := "components/broken.mdx", fm := none }

/-- A parsed document used to exercise `index_document` directly. -/
def docButtons : ParsedDoc :=
  { filepath := "components/buttons.mdx", title := "Buttons", description := "",
    sectionName := "components", component_name := "buttons",
    utility_classes := [], code_examples := [], aliases := [], toc := false,
    content := "Use the button classes.",
    url := "https://getbootstrap.com/docs/5.3/components/buttons/" }

/-- State after indexing `docButtons` once into a fresh store. -/
def dbOnce : DocDB :=
  (index_document emptyDB docButtons).1

/-- State after indexing `docButtons` twice (same filepath). -/
def dbTwice : DocDB :=
  (index_document dbOnce docButtons).1

/-- The metadata row present in `dbOnce`. -/
def rowButtons1 : DocRow :=
  { id := 1, filepath := "components/buttons.mdx", title := "Buttons",
    description := "", sectionName := "components", component_name := "buttons",
    utility_classes := [], code_examples := [], aliases := [], toc := false,
    url := "https://getbootstrap.com/docs/5.3/components/buttons/" }

/-! ## Claims -/

/-- Tally of the `build_index` fold over already-parsed documents: in the
embedding `index_document` always reports success, so every parsed document
lands in the first component and the failure count never moves. -/
theorem index_document_ok (db : DocDB) (doc : ParsedDoc) :
    (index_document db doc).2 = true := rfl

theorem build_index_tally :
    ∀ (documents : List ParsedDoc) (db : DocDB) (s fcount : Nat),
      (documents.foldl
        (fun acc doc =>
          let res := index_document acc.1 doc
          if res.2 then (res.1, acc.2.1 + 1, acc.2.2) else (res.1, acc.2.1, acc.2.2 + 1))
        (db, s, fcount)).2 = (s + documents.length, fcount) := by
  intro documents
  induction documents with
  | nil => intro db s fcount; simp
  | cons doc docs ih =>
    intro db s fcount
    rw [List.foldl_cons]
    show (List.foldl
        (fun (acc : DocDB × Nat × Nat) doc =>
          let res := index_document acc.1 doc
          if res.2 then (res.1, acc.2.1 + 1, acc.2.2) else (res.1, acc.2.1, acc.2.2 + 1))
        ((index_document db doc).1, s + 1, fcount) docs).2 = (s + (doc :: docs).length, fcount)
    rw [ih]
    have h : s + 1 + docs.length = s + (doc :: docs).length := by
      simp only [List.length_cons]
      omega
    rw [h]

/-- C1 counterexample: on the two-file fixture (one valid, one whose
front-matter parsing fails) `build_index` returns `(1, 0)`, not the claimed
`(1, 1)` — the parse failure is dropped by `parse_directory` before the
tally is taken. -/
theorem c1_build_fixture_not_one_one :
    (build_index emptyDB [fileButtons, fileBroken]).2 = (1, 0) ∧
      (build_index emptyDB [fileButtons, fileBroken]).2 ≠ (1, 1) := by
  constructor
  · decide
  · decide

/-- C1 (amended): for a fixture directory with one file that parses
successfully and one whose front-matter parsing fails, `build` returns
`(1, 0)`: the extraction failure is skipped inside `parse_directory` and is
not counted in the failed component, which only tallies index-write
failures. -/
theorem c1_build_counts_only_index_failures
    (fA fB : MdxFile) (docA : ParsedDoc)
    (hA : parse_file fA = some docA) (hB : fB.fm = none) :
    (build_index emptyDB [fA, fB]).2 = (1, 0) := by
  have hBparse : parse_file fB = none := by
    simp [parse_file, hB]
  simp only [build_index, parse_directory, List.filterMap_cons, hA, hBparse,
    List.filterMap_nil]
  have := build_index_tally [docA] (clear_index (init_database emptyDB)) 0 0
  simpa using this

/-- C1 witness: the amended statement at the concrete fixture. -/
theorem c1_build_counts_only_index_failures_witness :
    (build_index emptyDB [fileButtons, fileBroken]).2 = (1, 0) :=
  c1_build_counts_only_index_failures fileButtons fileBroken docButtons
    (by decide) (by decide)

/-- C2 counterexample: indexing the same filepath twice from a fresh store.
The surviving metadata row has the fresh id 2 (the original id 1 is not
preserved), while the full-text table still holds its row at rowid 1 —
an orphan whose rowid is the primary key of no metadata row. -/
theorem c2_reindex_breaks_rowid_preservation :
    dbOnce.metaRows.map DocRow.id = [1] ∧
      dbTwice.metaRows.map DocRow.id = [2] ∧
      dbTwice.ftsRows.map FtsRow.rowid = [1, 2] ∧
      ¬ (∀ f ∈ dbTwice.ftsRows, ∃ m ∈ dbTwice.metaRows, m.id = f.rowid) := by
  refine ⟨by decide, by decide, by decide, ?_⟩
  intro h
  obtain ⟨m, hm, hid⟩ := h ⟨1, "Buttons", "", "Use the button classes.",
    "components", "buttons"⟩ (by decide)
  have hrows : dbTwice.metaRows.map DocRow.id = [2] := by decide
  have : m.id ∈ dbTwice.metaRows.map DocRow.id := List.mem_map_of_mem DocRow.id hm
  rw [hrows] at this
  have h2 : m.id = 2 := List.mem_singleton.mp this
  rw [h2] at hid
  exact absurd hid (by decide)

/-- C2 (amended): when `index_document` inserts a record whose `filepath`
is already present, SQLite's `INSERT OR REPLACE` deletes the old metadata
row and inserts a fresh row under a brand-new AUTOINCREMENT id — the row
identity is not preserved — and the full-text row is written at the fresh
rowid while the full-text row at the old rowid stays behind, so an orphan
full-text row remains whose rowid is the primary key of no metadata row. -/
theorem c2_reindex_fresh_id_and_orphan
    (db : DocDB) (d : ParsedDoc) (r : DocRow)
    (hr : r ∈ db.metaRows) (hfp : r.filepath = d.filepath)
    (hlt : ∀ m ∈ db.metaRows, m.id < db.nextId)
    (huniq : ∀ m ∈ db.metaRows, m.id = r.id → m.filepath = d.filepath)
    (hfts : ∃ fr ∈ db.ftsRows, fr.rowid = r.id) :
    (∃ r' ∈ (index_document db d).1.metaRows,
        r'.filepath = d.filepath ∧ r'.id = db.nextId) ∧
      (∀ m' ∈ (index_document db d).1.metaRows, m'.id ≠ r.id) ∧
      (∃ fr' ∈ (index_document db d).1.ftsRows, fr'.rowid = r.id) := by
  have hrlt : r.id < db.nextId := hlt r hr
  refine ⟨?_, ?_, ?_⟩
  · refine ⟨_, List.mem_append_right _ (List.mem_singleton_self _), rfl, rfl⟩
  · intro m' hm'
    rcases List.mem_append.mp hm' with hleft | hright
    · have hkeep := List.of_mem_filter hleft
      have hmem := List.mem_of_mem_filter hleft
      intro hid
      have := huniq m' hmem hid
      simp [this] at hkeep
    · have heq := List.mem_singleton.mp hright
      rw [heq]
      show db.nextId ≠ r.id
      omega
  · obtain ⟨fr, hfr, hfrid⟩ := hfts
    refine ⟨fr, List.mem_append_left _ ?_, hfrid⟩
    apply List.mem_filter_of_mem hfr
    simp only [decide_eq_true_eq]
    omega

/-- C2 witness: the amended statement applied to the store that already
contains the `docButtons` record under id 1. -/
theorem c2_reindex_fresh_id_and_orphan_witness :
    (∃ r' ∈ (index_document dbOnce docButtons).1.metaRows,
        r'.filepath = docButtons.filepath ∧ r'.id = dbOnce.nextId) ∧
      (∀ m' ∈ (index_document dbOnce docButtons).1.metaRows, m'.id ≠ rowButtons1.id) ∧
      (∃ fr' ∈ (index_document dbOnce docButtons).1.ftsRows,
        fr'.rowid = rowButtons1.id) :=
  c2_reindex_fresh_id_and_orphan dbOnce docButtons rowButtons1
    (by decide) (by decide)
    (by decide)
    (by decide)
    (by decide)

/-- One expansion step appends the word and its (≤ 2) synonyms. -/
theorem expandStep_eq (acc : List String) (w : String) :
    expandStep acc w =
      acc ++ (w ::
        (match SEARCH_SYNONYMS w with
         | some syns => syns.take 2
         | none => [])) := by
  cases hs : SEARCH_SYNONYMS w <;> simp [expandStep, hs]

/-- The expansion loop accumulates exactly the flat per-word term list. -/
theorem expand_foldl_eq_flatMap :
    ∀ (ws : List String) (acc : List String),
      ws.foldl expandStep acc =
        acc ++ ws.flatMap (fun word =>
          word ::
            (match SEARCH_SYNONYMS word with
             | some syns => syns.take 2
             | none => [])) := by
  intro ws
  induction ws with
  | nil => intro acc; simp
  | cons w ws ih =>
    intro acc
    rw [List.foldl_cons, expandStep_eq, ih, List.flatMap_cons, List.append_assoc]

/-- C4: synonym expansion emits each lowercased query word followed by at
most two of its synonyms, all flattened into a single `OR` disjunction with
no grouping; for `"navbar"` the expanded query is
`"navbar OR nav OR navigation"`, so a record containing only `"navigation"`
matches the flat disjunction. -/
theorem c4_synonym_expansion_flat_or :
    (∀ q : String, expand_query_with_synonyms q = joinOr (expandTermList q)) ∧
      expand_query_with_synonyms "navbar" = "navbar OR nav OR navigation" ∧
      "navigation" ∈ expandTermList "navbar" ∧
      ftsOrMatch (expandTermList "navbar") ["navigation"] = true := by
  refine ⟨?_, by decide, by decide, by decide⟩
  intro q
  show joinOr _ = joinOr _
  rw [expand_foldl_eq_flatMap]
  rw [List.nil_append]
  rfl

/-- C5: `search` returns the expanded query's rows when that query
executes; on any failure it retries exactly once with the original
unexpanded query; if that also fails it returns `[]` — in every case it
returns a value instead of propagating the failure. -/
theorem c5_search_retries_once_then_empty (exec : QueryExec) (q : String) (limit : Nat) :
    (∀ rows, exec (expand_query_with_synonyms q) limit = .ok rows →
        search exec q limit = rows.map rowToResult) ∧
      (∀ e rows, exec (expand_query_with_synonyms q) limit = .error e →
        exec q limit = .ok rows →
        search exec q limit = rows.map rowToResult) ∧
      (∀ e e', exec (expand_query_with_synonyms q) limit = .error e →
        exec q limit = .error e' → search exec q limit = []) := by
  refine ⟨?_, ?_, ?_⟩
  · intro rows h
    simp [search, h]
  · intro e rows h h'
    simp [search, h, h']
  · intro e e' h h'
    simp [search, h, h']

/-- C5 witness: a store whose FTS engine rejects the expanded OR query but
accepts the raw query (retry path), and one that rejects both (empty
fallback). -/
theorem c5_search_retries_once_then_empty_witness :
    search
        (fun s _ => if s = "navbar" then Except.ok [] else Except.error "fts5: syntax error")
        "navbar" 10 = [] ∧
      search (fun _ _ => (Except.error "fts5: syntax error" : Except String (List SearchRawRow)))
        "navbar" 10 = [] := by
  constructor
  · have h := (c5_search_retries_once_then_empty
      (fun s _ => if s = "navbar" then Except.ok [] else Except.error "fts5: syntax error")
      "navbar" 10).2.1 "fts5: syntax error" []
    simpa using h rfl rfl
  · exact (c5_search_retries_once_then_empty
      (fun _ _ => Except.error "fts5: syntax error") "navbar" 10).2.2
      "fts5: syntax error" "fts5: syntax error" rfl rfl

/-- The collection loop of `_extract_code_examples` is the filter-map over
the 1-based enumeration of the raw regex matches. -/
theorem collectExamples_eq_enum :
    ∀ (ms : List (List Char)) (i : Nat),
      collectExamples i ms =
        (ms.enumFrom i).filterMap fun p =>
          if (pyStrip p.2).isEmpty then none
          else some ⟨"example_" ++ toString p.1, String.mk (pyStrip p.2)⟩ := by
  intro ms
  induction ms with
  | nil => intro i; rfl
  | cons m ms ih =>
    intro i
    simp only [collectExamples, List.enumFrom, List.filterMap_cons]
    by_cases h : (pyStrip m).isEmpty
    · simp [h, ih]
    · simp [h, ih]

/-- C6: code-example extraction keeps the blocks that are non-empty after
trimming, in document order, each id using the block's original 1-based
match index — so ids keep gaps where empty blocks were dropped.  On markup
with three blocks whose second trims to empty, the result is exactly
`[example_1, example_3]`. -/
theorem c6_example_ids_use_original_index :
    (∀ content : String,
        extract_code_examples content =
          ((scanExamples 0 content.toList).enumFrom 1).filterMap fun p =>
            if (pyStrip p.2).isEmpty then none
            else some ⟨"example_" ++ toString p.1, String.mk (pyStrip p.2)⟩) ∧
      (scanExamples 0
        "<Example>A</Example><Example>  </Example><Example kind=x>C</Example>".toList).length
        = 3 ∧
      extract_code_examples
        "<Example>A</Example><Example>  </Example><Example kind=x>C</Example>" =
        [⟨"example_1", "A"⟩, ⟨"example_3", "C"⟩] := by
  refine ⟨?_, by decide, by decide⟩
  intro content
  exact collectExamples_eq_enum _ 1

/-- Template fixture: `blog` with an RTL sibling `blog-rtl`. -/
def fsBlog : FileSys :=
  { files :=
      [("examples/blog/index.html", "<title>Blog</title>"),
       ("examples/blog-rtl/index.html", "<title>Blog RTL</title>")] }

theorem isSuffixOf_true_iff (l d : List Char) : l.isSuffixOf d = true ↔ l <:+ d := by
  simp [List.isSuffixOf]

theorem isSuffixOf_false_iff (l d : List Char) :
    l.isSuffixOf d = false ↔ ¬ (l <:+ d) := by
  rw [Bool.eq_false_iff]
  constructor
  · intro h hs
    exact h (by simp [List.isSuffixOf]; exact hs)
  · intro h hq
    exact h (by simpa [List.isSuffixOf] using hq)

/-- C7: a template whose directory name ends in `-rtl` is marked `is_rtl`
and never claims an RTL variant; otherwise `is_rtl = false` and the record
points at `{name}-rtl` exactly when the sibling directory's entry markup
file exists. -/
theorem c7_rtl_linkage (fs : FileSys) (examples_path dirName : String)
    (rec : TemplateRecord)
    (h : parse_template fs examples_path dirName = some rec) :
    ("-rtl".toList.isSuffixOf dirName.toList = true →
        rec.is_rtl = true ∧ rec.has_rtl_variant = false ∧
          rec.rtl_template_name = none) ∧
      ("-rtl".toList.isSuffixOf dirName.toList = false →
        rec.is_rtl = false ∧
          (fs.hasFile (examples_path ++ "/" ++ (dirName ++ "-rtl") ++ "/index.html") = true →
              rec.has_rtl_variant = true ∧
                rec.rtl_template_name = some (dirName ++ "-rtl")) ∧
          (fs.hasFile (examples_path ++ "/" ++ (dirName ++ "-rtl") ++ "/index.html") = false →
              rec.has_rtl_variant = false ∧ rec.rtl_template_name = none)) := by
  simp only [parse_template] at h
  by_cases hhas : fs.hasFile (examples_path ++ "/" ++ dirName ++ "/index.html")
  · simp only [hhas, Bool.not_true, Bool.false_eq_true, if_false] at h
    cases hread : fs.readFile (examples_path ++ "/" ++ dirName ++ "/index.html") with
    | none => rw [hread] at h; exact absurd h (by simp)
    | some html =>
      rw [hread] at h
      have hrec := (Option.some.inj h).symm
      constructor
      · intro hsuf
        have hsuf' : ['-', 'r', 't', 'l'] <:+ dirName.data :=
          (isSuffixOf_true_iff _ _).mp hsuf
        rw [hrec]
        simp [hsuf']
      · intro hsuf
        have hsuf' : ¬ (['-', 'r', 't', 'l'] <:+ dirName.data) :=
          (isSuffixOf_false_iff _ _).mp hsuf
        rw [hrec]
        refine ⟨hsuf, ?_, ?_⟩
        · intro hex
          simp [hsuf', hex]
        · intro hex
          simp [hsuf', hex]
  · simp only [hhas, Bool.not_false, if_true] at h
    exact absurd h (by simp)

theorem mem_insertStr (x y : String) (l : List String) :
    x ∈ insertStr y l ↔ x = y ∨ x ∈ l := by
  induction l with
  | nil => simp [insertStr]
  | cons z zs ih =>
    by_cases h : strLe y z
    · simp [insertStr, h]
    · simp [insertStr, h, ih]
      tauto

theorem mem_sortStrs (x : String) (l : List String) : x ∈ sortStrs l ↔ x ∈ l := by
  induction l with
  | nil => simp [sortStrs]
  | cons y ys ih => simp [sortStrs, mem_insertStr, ih]

theorem mem_dedupStrs (x : String) (l : List String) (h : x ∈ dedupStrs l) : x ∈ l := by
  induction l with
  | nil => simpa [dedupStrs] using h
  | cons y ys ih =>
    by_cases hy : y ∈ ys
    · simp only [dedupStrs, if_pos hy] at h
      exact List.mem_cons_of_mem y (ih h)
    · simp only [dedupStrs, if_neg hy] at h
      rcases List.mem_cons.mp h with rfl | h'
      · exact List.mem_cons_self _ _
      · exact List.mem_cons_of_mem y (ih h')

theorem isPrefixOf_self (l : List Char) : l.isPrefixOf l = true := by
  induction l with
  | nil => rfl
  | cons c cs ih => simp [List.isPrefixOf, ih]

theorem boundaryAfter_length (l : List Char) : boundaryAfter l.length l = true := by
  simp [boundaryAfter, List.drop_length]

/-- C3 counterexample: the token `col-extra` inside a class attribute is
kept by the extractor (the grid-column regex matches the prefix `col`
ending at the word boundary before `-`), yet `col-extra` fully matches no
family pattern — so "kept only if it fully matches" is false. -/
theorem c3_prefix_matched_token_kept :
    extract_utility_classes "class=\"col-extra\"" = ["col-extra"] ∧
      specAnchoredFullMatch "col-extra" = false := by
  exact ⟨by decide, by decide⟩

/-- C3 (amended): a token is kept only if some curated family pattern
matches a *prefix* of it ending on a word boundary (Python `re.match`
semantics — every anchored full match qualifies, but so do proper prefixes
ending at a word boundary such as `col` in `col-extra`); for the input
containing `class="col-10 mt-3 not-a-class"` the extracted set is exactly
`["col-10", "mt-3"]` sorted. -/
theorem c3_utility_tokens_prefix_boundary :
    (∀ (content cls : String), cls ∈ extract_utility_classes content →
        anyUtilityMatch cls = true) ∧
      (∀ cls : String, specAnchoredFullMatch cls = true → anyUtilityMatch cls = true) ∧
      extract_utility_classes "class=\"col-10 mt-3 not-a-class\"" = ["col-10", "mt-3"] := by
  refine ⟨?_, ?_, by decide⟩
  · intro content cls h
    simp only [extract_utility_classes] at h
    have h1 := mem_dedupStrs _ _ ((mem_sortStrs _ _).mp h)
    obtain ⟨cs, _, h2⟩ := List.mem_flatMap.mp h1
    obtain ⟨tok, _, h3⟩ := List.mem_filterMap.mp h2
    by_cases hm : anyUtilityMatch (String.mk tok)
    · rw [if_pos hm] at h3
      obtain rfl := Option.some.inj h3
      exact hm
    · rw [if_neg hm] at h3
      exact absurd h3 (by simp)
  · intro cls h
    simp only [specAnchoredFullMatch, List.any_eq_true, beq_iff_eq] at h
    obtain ⟨alts, halts, a, ha, rfl⟩ := h
    simp only [anyUtilityMatch, List.any_eq_true]
    refine ⟨alts, halts, ?_⟩
    simp only [familyMatch, List.any_eq_true]
    refine ⟨a, ha, ?_⟩
    rw [Bool.and_eq_true]
    constructor
    · exact isPrefixOf_self _
    · exact boundaryAfter_length a.toList

/-- C3 witness: the soundness component applied to the kept token
`col-extra` of the counterexample content. -/
theorem c3_utility_tokens_prefix_boundary_witness :
    anyUtilityMatch "col-extra" = true :=
  c3_utility_tokens_prefix_boundary.1 "class=\"col-extra\"" "col-extra" (by decide)

/-- C7 witness: the fixture pair `blog` / `blog-rtl`. -/
theorem c7_rtl_linkage_witness :
    (parse_template fsBlog "examples" "blog").map
        (fun rec => (rec.is_rtl, rec.has_rtl_variant, rec.rtl_template_name)) =
      some (false, true, some "blog-rtl") ∧
    (parse_template fsBlog "examples" "blog-rtl").map
        (fun rec => (rec.is_rtl, rec.has_rtl_variant, rec.rtl_template_name)) =
      some (true, false, none) := by
  constructor
  · cases hp : parse_template fsBlog "examples" "blog" with
    | none => exact absurd hp (by decide)
    | some rec =>
      have h := (c7_rtl_linkage fsBlog "examples" "blog" rec hp).2 (by decide)
      obtain ⟨h1, h2, _⟩ := h
      obtain ⟨h3, h4⟩ := h2 (by decide)
      simp [h1, h3, h4]
  · cases hp : parse_template fsBlog "examples" "blog-rtl" with
    | none => exact absurd hp (by decide)
    | some rec =>
      have h := (c7_rtl_linkage fsBlog "examples" "blog-rtl" rec hp).1 (by decide)
      obtain ⟨h1, h2, h3⟩ := h
      simp [h1, h2, h3]

/-- A `LIKE`-equality with the literal `/` forces the subject character to
be `/` itself (ASCII case folding touches only letters). -/
theorem likeCharEq_slash (d : Char) (h : likeCharEq '/' d = true) : d = '/' := by
  simp only [likeCharEq, Bool.or_eq_true, Bool.and_eq_true, decide_eq_true_eq] at h
  have h47 : ('/' : Char).toNat = 47 := rfl
  rcases h with (h | h) | h
  · exact h.symm
  · exact absurd h.1.1 (by omega)
  · rcases h with ⟨⟨h1, _⟩, h3⟩
    omega

/-- Root-level fixture: one document stored directly at the docs root. -/
def rowRootDoc : DocRow :=
  { id := 1, filepath := "buttons.mdx", title := "Buttons", description := "",
    sectionName := "buttons.mdx", component_name := "buttons",
    utility_classes := [], code_examples := [], aliases := [], toc := false,
    url := "https://getbootstrap.com/docs/5.3/buttons.mdx/buttons/" }

def ftsRootDoc : FtsRow :=
  { rowid := 1, title := "Buttons", description := "",
    content := "Use the button classes.", sectionName := "buttons.mdx",
    component_name := "buttons" }

def dbRootDoc : DocDB :=
  { nextId := 2, metaRows := [rowRootDoc], ftsRows := [ftsRootDoc] }

/-- C10: the slug lookup's pattern `%/<slug>.mdx` contains a literal `/`,
so it can only match filepaths containing a separator; over a store whose
filepaths are all separator-free (files directly at the documentation
root), `get_doc_by_slug` returns `none` for every slug, even when a record
with filepath `<slug>.mdx` exists — while `find_component` still finds
every such record. -/
theorem c10_root_level_docs_unreachable_by_slug (db : DocDB) (slug : String)
    (hroot : ∃ m ∈ db.metaRows, m.filepath = slug ++ ".mdx")
    (hall : ∀ m ∈ db.metaRows, ('/' : Char) ∉ m.filepath.toList) :
    get_doc_by_slug db slug = none ∧
      (∀ m ∈ db.metaRows, find_component m.component_name db.metaRows ≠ none) ∧
      (∀ (db2 : DocDB) (r : SlugDoc), get_doc_by_slug db2 slug = some r →
        ('/' : Char) ∈ r.filepath.toList) := by
  refine ⟨?_, ?_, ?_⟩
  · simp only [get_doc_by_slug]
    have hnil :
        (db.metaRows.filterMap fun m =>
          match db.ftsRows.find? (fun f => f.rowid == m.id) with
          | some f =>
            if likeMatch ('%' :: '/' :: slug.toList ++ ".mdx".toList) m.filepath.toList
            then some (m, f) else none
          | none => none) = [] := by
      rw [List.filterMap_eq_nil_iff]
      intro m hm
      cases hf : db.ftsRows.find? (fun f => f.rowid == m.id) with
      | none => simp
      | some f =>
        have hlk : ¬ (likeMatch ('%' :: '/' :: slug.toList ++ ".mdx".toList)
            m.filepath.toList = true) := by
          intro hl
          obtain ⟨d, hd, he⟩ := likeMatch_literal_mem _ _ hl '/'
            (List.mem_cons_of_mem _ (List.mem_cons_self _ _))
            (by decide) (by decide)
          rw [likeCharEq_slash d he] at hd
          exact hall m hm hd
        rw [Bool.not_eq_true] at hlk
        simp
        exact hlk
    rw [hnil]
    rfl
  · intro m hm
    simp only [find_component]
    cases hfind : db.metaRows.find? fun r => r.component_name == m.component_name with
    | none =>
      have : (db.metaRows.find? fun r => r.component_name == m.component_name).isSome := by
        rw [List.find?_isSome]
        exact ⟨m, hm, by simp⟩
      rw [hfind] at this
      simp at this
    | some r => simp
  · intro db2 r h
    simp only [get_doc_by_slug] at h
    rw [Option.map_eq_some'] at h
    obtain ⟨p, hp, hr⟩ := h
    have hpmem := List.mem_of_mem_head? hp
    obtain ⟨m, _, hmatch⟩ := List.mem_filterMap.mp hpmem
    split at hmatch
    · split at hmatch
      · next hlk =>
        have hpk := Option.some.inj hmatch
        have hfp : r.filepath = m.filepath := by
          rw [← hr, ← hpk]
        obtain ⟨d, hd, he⟩ := likeMatch_literal_mem _ _ hlk '/'
          (List.mem_cons_of_mem _ (List.mem_cons_self _ _))
          (by decide) (by decide)
        rw [likeCharEq_slash d he] at hd
        rw [hfp]
        exact hd
      · exact absurd hmatch (by simp)
    · exact absurd hmatch (by simp)

/-- C10 witness: a store holding only `buttons.mdx` at the root; the slug
`buttons` finds nothing even though the record exists and `find_component`
returns it. -/
theorem c10_root_level_docs_unreachable_by_slug_witness :
    get_doc_by_slug dbRootDoc "buttons" = none ∧
      find_component "buttons" dbRootDoc.metaRows ≠ none := by
  have h := c10_root_level_docs_unreachable_by_slug dbRootDoc "buttons"
    ⟨rowRootDoc, by decide, by decide⟩ (by decide)
  exact ⟨h.1, h.2.1 rowRootDoc (by decide)⟩

/-- `json.dumps` emits a plain character unchanged. -/
theorem jsonEscapeChar_plain (c : Char) (h : jsonPlainChar c = true) :
    jsonEscapeChar c = [c] := by
  simp only [jsonPlainChar, Bool.and_eq_true, decide_eq_true_eq] at h
  obtain ⟨⟨⟨h1, h2⟩, h3⟩, h4⟩ := h
  have h1' : ¬ (c = '"') := by simpa using h1
  have h2' : ¬ (c = '\\') := by simpa using h2
  simp only [jsonEscapeChar, if_neg h1', if_neg h2']
  rw [if_neg]
  simp only [Bool.or_eq_true, decide_eq_true_eq, not_or]
  omega

/-- Escape-free serialisation of a plain string. -/
theorem jsonStr_plain (s : String) (h : ∀ c ∈ s.toList, jsonPlainChar c = true) :
    jsonStr s = '"' :: s.toList ++ ['"'] := by
  simp only [jsonStr]
  congr 1
  have : ∀ l : List Char, (∀ c ∈ l, jsonPlainChar c = true) →
      l.flatMap jsonEscapeChar = l := by
    intro l
    induction l with
    | nil => intro _; rfl
    | cons c cs ih =>
      intro hl
      rw [List.flatMap_cons, jsonEscapeChar_plain c (hl c (List.mem_cons_self _ _)),
        ih fun d hd => hl d (List.mem_cons_of_mem _ hd)]
      rfl
  rw [this s.toList h]

/-- A member's serialisation appears contiguously in the joined chunk
list. -/
theorem joinChunks_mem_decomp (x : String) :
    ∀ l : List String, x ∈ l →
      ∃ a b, joinChunks ", ".toList (l.map jsonStr) = a ++ (jsonStr x ++ b) := by
  intro l
  induction l with
  | nil => intro h; simp at h
  | cons y ys ih =>
    intro hx
    rcases List.mem_cons.mp hx with rfl | hx'
    · cases ys with
      | nil => exact ⟨[], [], by simp [joinChunks]⟩
      | cons z zs =>
        refine ⟨[], ", ".toList ++ joinChunks ", ".toList ((z :: zs).map jsonStr), ?_⟩
        simp [joinChunks, List.append_assoc]
    · obtain ⟨a, b, hab⟩ := ih hx'
      cases hys : ys with
      | nil => subst hys; simp at hx'
      | cons z zs =>
        subst hys
        refine ⟨jsonStr y ++ ", ".toList ++ a, b, ?_⟩
        simp only [List.map_cons, joinChunks, List.append_assoc]
        rw [List.map_cons] at hab
        rw [hab]

/-- A member's serialisation appears contiguously inside `jsonDumps`. -/
theorem jsonDumps_mem_decomp (x : String) (l : List String) (hx : x ∈ l) :
    ∃ a b, (jsonDumps l).toList = a ++ ((jsonStr x) ++ b) := by
  obtain ⟨a, b, hab⟩ := joinChunks_mem_decomp x l hx
  refine ⟨'[' :: a, b ++ [']'], ?_⟩
  show ('[' :: joinChunks ", ".toList (l.map jsonStr) ++ [']']) = _
  rw [hab]
  simp [List.append_assoc]

/-- Completeness of the SQL pre-filter: if the (escape-free) name is an
element of the stored list, the `LIKE '%"<name>"%'` pre-filter accepts the
serialised column. -/
theorem like_prefilter_of_mem (name : String) (l : List String)
    (hmem : name ∈ l) (hplain : ∀ c ∈ name.toList, jsonPlainChar c = true) :
    likeMatch ('%' :: '"' :: name.toList ++ ['"', '%']) (jsonDumps l).toList = true := by
  obtain ⟨a, b, hd⟩ := jsonDumps_mem_decomp name l hmem
  rw [jsonStr_plain name hplain] at hd
  rw [hd]
  have h := likeMatch_contains ('"' :: name.toList ++ ['"']) a b
  have hpat : ('%' :: (('"' :: name.toList ++ ['"']) ++ ['%'])) =
      ('%' :: '"' :: name.toList ++ ['"', '%']) := by
    simp [List.append_assoc]
  have hsub : (a ++ (('"' :: name.toList ++ ['"']) ++ b)) =
      (a ++ ('"' :: name.toList ++ ['"'] ++ b)) := by
    simp [List.append_assoc]
  rw [hpat, hsub] at h
  simpa [List.append_assoc] using h

/-- The "substring pre-filter then exact re-check" composition equals a
plain exact-membership filter whenever membership implies the pre-filter. -/
theorem prefilter_recheck_eq {α β : Type} (like : α → Bool) (mem : α → Prop)
    [DecidablePred mem] (out : α → β)
    (himp : ∀ r, mem r → like r = true) :
    ∀ rows : List α,
      ((rows.filter like).filterMap fun r => if mem r then some (out r) else none) =
        (rows.filter fun r => decide (mem r)).map out := by
  intro rows
  induction rows with
  | nil => rfl
  | cons r rs ih =>
    by_cases hm : mem r
    · have hl := himp r hm
      simp [List.filter_cons, hl, hm, ih]
    · by_cases hlk : like r = true
      · simp [List.filter_cons, hlk, hm, ih]
      · simp [List.filter_cons, hlk, hm, ih]

/-- C8: for an (escape-free) class name, `find_utility_class` returns
exactly the stored records whose deserialised utility-class list contains
the name as an element — the `LIKE` pre-filter never loses a true member
and the in-memory re-check removes every substring false positive; the
mirrored `get_templates_by_component` has the same exact-element
guarantee. -/
theorem c8_exact_element_lookup (class_name : String)
    (hplain : ∀ c ∈ class_name.toList, jsonPlainChar c = true) :
    (∀ rows : List DocRow,
        find_utility_class class_name rows =
          (rows.filter fun r => decide (class_name ∈ r.utility_classes)).map fun r =>
            { id := r.id, filepath := r.filepath, title := r.title,
              description := r.description, sectionName := r.sectionName,
              utility_classes := r.utility_classes, url := r.url }) ∧
      (∀ rows : List TemplateRow,
        get_templates_by_component class_name rows =
          (rows.filter fun r => decide (class_name ∈ r.components)).map fun r =>
            { id := r.id, name := r.name, title := r.title, category := r.category,
              description := r.description, complexity := r.complexity,
              components := r.components, url := r.url }) := by
  constructor
  · intro rows
    simp only [find_utility_class]
    exact prefilter_recheck_eq _ _ _
      (fun r hmem => like_prefilter_of_mem class_name r.utility_classes hmem hplain) rows
  · intro rows
    simp only [get_templates_by_component]
    exact prefilter_recheck_eq _ _ _
      (fun r hmem => like_prefilter_of_mem class_name r.components hmem hplain) rows

/-- Store fixture whose only record carries the single class `col-10`. -/
def rowCol10 : DocRow :=
  { id := 1, filepath := "layout/columns.mdx", title := "Columns",
    description := "", sectionName := "layout", component_name := "columns",
    utility_classes := ["col-10"], code_examples := [], aliases := [],
    toc := false, url := "https://getbootstrap.com/docs/5.3/layout/columns/" }

/-- C8 witness: querying `col-1` against a store containing only `col-10`
returns nothing, while querying `col-10` returns the record. -/
theorem c8_exact_element_lookup_witness :
    find_utility_class "col-1" [rowCol10] = [] ∧
      find_utility_class "col-10" [rowCol10] =
        [{ id := 1, filepath := "layout/columns.mdx", title := "Columns",
           description := "", sectionName := "layout",
           utility_classes := ["col-10"],
           url := "https://getbootstrap.com/docs/5.3/layout/columns/" }] := by
  constructor
  · rw [(c8_exact_element_lookup "col-1" (by decide)).1 [rowCol10]]
    decide
  · rw [(c8_exact_element_lookup "col-10" (by decide)).1 [rowCol10]]
    decide

/-- A successful `scanTagIdx` result is the per-position regex match at the
least matching position. -/
theorem scanTagIdx_some (tag : List Char) :
    ∀ (l : List Char) (i : Nat) (b : List Char), scanTagIdx tag l = some (i, b) →
      tagBlockAt tag (l.drop i) = some b ∧
        ∀ j < i, tagBlockAt tag (l.drop j) = none := by
  intro l
  induction l with
  | nil => intro i b h; simp [scanTagIdx] at h
  | cons c rest ih =>
    intro i b h
    cases hat : tagBlockAt tag (c :: rest) with
    | some b' =>
      rw [scanTagIdx, hat] at h
      obtain ⟨hi, hb⟩ := Prod.mk.injEq .. ▸ Option.some.inj h
      subst hi
      constructor
      · rw [List.drop_zero, hat, hb]
      · intro j hj
        exact absurd hj (by omega)
    | none =>
      rw [scanTagIdx, hat] at h
      cases hrec : scanTagIdx tag rest with
      | none => rw [hrec] at h; simp at h
      | some p =>
        rw [hrec] at h
        simp only [Option.map_some] at h
        obtain ⟨hi, hb⟩ := Prod.mk.injEq .. ▸ Option.some.inj h
        obtain ⟨hdrop, hleast⟩ := ih p.1 p.2 (by rw [hrec])
        constructor
        · rw [← hi, List.drop_succ_cons, hdrop, hb]
        · intro j hj
          cases j with
          | zero => simpa using hat
          | succ j' =>
            rw [List.drop_succ_cons]
            exact hleast j' (by omega)

/-- A failed `scanTagIdx` means the per-position matcher fails
everywhere. -/
theorem scanTagIdx_none (tag : List Char) :
    ∀ l : List Char, scanTagIdx tag l = none →
      ∀ j, tagBlockAt tag (l.drop j) = none := by
  intro l
  induction l with
  | nil =>
    intro _ j
    rw [List.drop_nil]
    rfl
  | cons c rest ih =>
    intro h j
    cases hat : tagBlockAt tag (c :: rest) with
    | some b' => rw [scanTagIdx, hat] at h; simp at h
    | none =>
      rw [scanTagIdx, hat] at h
      cases hrec : scanTagIdx tag rest with
      | some p => rw [hrec] at h; simp at h
      | none =>
        cases j with
        | zero => simpa using hat
        | succ j' =>
          rw [List.drop_succ_cons]
          exact ih hrec j'

/-- C9: for an existing template and a section tag among
`header|nav|main|footer`, the preview is the regex match at the least
position where `<tag[^>]*>.*?</tag>` matches (the first tag-bounded match),
and the first 5000 characters of the markup when the tag matches nowhere;
the section tag `full` instead returns the first 500 lines — a distinct
truncation rule. -/
theorem c9_preview_first_match_or_truncation
    (fs : FileSys) (rows : List TemplateRow) (name : String) (t : TemplateData)
    (ht : get_template fs rows name = some t) :
    (∀ sectionTag : String,
        sectionTag = "header" ∨ sectionTag = "nav" ∨ sectionTag = "main" ∨
          sectionTag = "footer" →
        ∃ res : PreviewResult,
          get_template_preview fs rows name sectionTag = some res ∧
            res.name = t.name ∧ res.title = t.title ∧
            res.sectionName = sectionTag ∧ res.url = t.url ∧
            ((∃ i b, scanTagIdx sectionTag.toList t.html_content.toList = some (i, b) ∧
                res.preview = String.mk b ∧
                tagBlockAt sectionTag.toList (t.html_content.toList.drop i) = some b ∧
                (∀ j < i, tagBlockAt sectionTag.toList (t.html_content.toList.drop j) = none)) ∨
              ((∀ j, tagBlockAt sectionTag.toList (t.html_content.toList.drop j) = none) ∧
                res.preview = String.mk (t.html_content.toList.take 5000)))) ∧
      get_template_preview fs rows name "full" =
        some { name := t.name, title := t.title, sectionName := "full",
               preview := joinNl ((splitOnChar '\n' t.html_content.toList).take 500),
               url := t.url } := by
  constructor
  · intro sectionTag hmem
    have hnotfull : ¬ (sectionTag = "full") := by
      rcases hmem with rfl | rfl | rfl | rfl <;> decide
    have hfour : (sectionTag = "header" ∨ sectionTag = "nav" ∨ sectionTag = "main" ∨
        sectionTag = "footer") := hmem
    refine ⟨{ name := t.name, title := t.title, sectionName := sectionTag,
              preview := extract_section t.html_content sectionTag,
              url := t.url }, ?_, rfl, rfl, rfl, rfl, ?_⟩
    · simp only [get_template_preview, ht, if_neg hnotfull]
    · simp only [extract_section, if_pos hfour, findTagBlock]
      cases hscan : scanTagIdx sectionTag.toList t.html_content.toList with
      | none =>
        right
        exact ⟨scanTagIdx_none _ _ hscan, by simp⟩
      | some p =>
        left
        obtain ⟨hdrop, hleast⟩ := scanTagIdx_some _ _ p.1 p.2 (hscan.trans rfl)
        exact ⟨p.1, p.2, rfl, by simp, hdrop, hleast⟩
  · simp [get_template_preview, ht]

/-- Preview fixture: one template whose markup holds an upper-case `<NAV>`
block and a `<footer>` block. -/
def trowShell : TemplateRow :=
  { id := 1, name := "shell", title := "Shell", category := "layouts",
    description := "d", complexity := "simple",
    html_path := "examples/shell/index.html", css_files := [], js_files := [],
    components := [], utility_classes := [], has_rtl_variant := false,
    rtl_template_name := none, is_rtl := false, url := "u" }

def fsShell : FileSys :=
  { files := [("examples/shell/index.html",
      "<p>x</p><NAV class=y>menu</nav><footer>f</footer>")] }

/-- The template as hydrated by `get_template` on the fixture. -/
def tShell : TemplateData :=
  { id := 1, name := "shell", title := "Shell", category := "layouts",
    description := "d", complexity := "simple",
    html_content := "<p>x</p><NAV class=y>menu</nav><footer>f</footer>",
    css_content := [], js_content := [], components := [], utility_classes := [],
    has_rtl_variant := false, rtl_template_name := none, is_rtl := false,
    url := "u" }

/-- C9 witness: on the fixture, the `nav` preview is the first
(case-insensitively matched) `<NAV …>…</nav>` block and the `full` preview
is the 500-line truncation of the raw markup. -/
theorem c9_preview_first_match_or_truncation_witness :
    (∃ res : PreviewResult,
        get_template_preview fsShell [trowShell] "shell" "nav" = some res ∧
          res.preview = "<NAV class=y>menu</nav>") ∧
      get_template_preview fsShell [trowShell] "shell" "full" =
        some { name := "shell", title := "Shell", sectionName := "full",
               preview := "<p>x</p><NAV class=y>menu</nav><footer>f</footer>",
               url := "u" } := by
  have ht : get_template fsShell [trowShell] "shell" = some tShell := by decide
  have h := c9_preview_first_match_or_truncation fsShell [trowShell] "shell" tShell ht
  constructor
  · obtain ⟨res, hres, _, _, _, _, hdisj⟩ := h.1 "nav" (by right; left; rfl)
    refine ⟨res, hres, ?_⟩
    have hconc : scanTagIdx "nav".toList tShell.html_content.toList =
        some (8, "<NAV class=y>menu</nav>".toList) := by decide
    rcases hdisj with ⟨i, b, hscan, hprev, _, _⟩ | ⟨hnone, _⟩
    · have hpair : ((8 : Nat), "<NAV class=y>menu</nav>".toList) = (i, b) :=
        Option.some.inj (hconc.symm.trans hscan)
      injection hpair with hi hb
      rw [hprev, ← hb]
      rfl
    · exfalso
      have h8 := hnone 8
      have hblock : tagBlockAt "nav".toList (List.drop 8 tShell.html_content.toList) =
          some "<NAV class=y>menu</nav>".toList := by decide
      rw [hblock] at h8
      exact Option.noConfusion h8
  · rw [h.2]
    decide

end Bootstrap
